import Mathlib

/-! Scentara backend: order, cart, wishlist, review, user and authentication handlers.

A shallow embedding of the route handlers of the Scentara e-commerce backend
(`src/routes/*.js`, `src/middlewares/auth.middleware.js`) together with the
Mongoose schemas they persist through (`src/models/*.js`).

Modelling conventions.

* A collection is a list of documents in insertion order.  `findOne` returns
  the first document matching the filter, `findById` the first document with
  the given `_id`.
* A stored ObjectId is represented by its canonical string form, the value
  that `toString()` yields.  `findById`, document constructors and `push` cast
  a request string to an ObjectId.  In the two handlers that also compare the
  raw request string with stored ids, `postCart` and `postWishlist`, the cast
  is the parameter `castId` (`none` is a CastError) and the comparison is made
  on the raw string, as in the source; the other handlers take the id of the
  request in its canonical form.
* JavaScript numbers are double-precision floats.  The model holds the
  integer-valued ones: an `Int` stands for the number of that value, and the
  operations `jsAdd` and `jsMul` round the exact result to the nearest double,
  ties to even.  Numbers with a fractional part and the exponent range
  (overflow to `Infinity`) are outside the model, so the theorems on sums are
  stated on the safe integers, of magnitude below `2 ^ 53`, where the
  arithmetic of the code is exact.
* `undefined` request fields are `none`.  Truthiness tests (`!x`) are spelled
  out by `falsyStr` and `falsyNum`.
* A handler is a function from the database, the authenticated identity and
  the request to a response and the database afterwards.  An exception raised
  inside the `try` block is an `Except.error`, which the `catch` clause turns
  into a 500 response.
* `timestamps: true` bookkeeping (`createdAt`, `updatedAt`) is outside the
  model.
* The handlers of `userRouter` read and write the user collection only and are
  functions on the list of users.
-/

namespace Scentara

/-! ## Data model -/

abbrev ObjectId := String

/-- The identity that the authentication gate attaches to a request
(`req.user`, the decoded token payload). -/
structure Identity where
  userId : ObjectId
  role : String
  deriving DecidableEq, Repr

/-- What a handler sends back: `res.status(code).json(body)`, with the
`message` (or `msg`) field of the body. -/
structure Response where
  status : Nat
  message : String
  deriving DecidableEq, Repr

/-- A document of `productSchema` (`src/models/product.model.js`), restricted
to the identifier and the required scalar fields. -/
structure Product where
  _id : ObjectId
  name : String
  brand : String
  category : String
  volume : Int
  price : Int
  stock : Int
  image : String
  deriving DecidableEq, Repr

/-- Modelled from the spec: `src/models/cart.model.js` is not part of the
sources.  A cart line is a product reference with a quantity. -/
structure CartItem where
  productId : ObjectId
  quantity : Int
  deriving DecidableEq, Repr

/-- Modelled from the spec: `src/models/cart.model.js` is not part of the
sources.  A cart holds the owning user id and an ordered list of lines; the
schema enforces nothing on the quantity. -/
structure Cart where
  _id : ObjectId
  userId : ObjectId
  items : List CartItem
  deriving DecidableEq, Repr

/-- The nested `shippingAddress` object of `orderSchema`. -/
structure ShippingAddress where
  label : Option String
  fullName : Option String
  phone : Option String
  pincode : Option String
  state : Option String
  city : Option String
  addressLine : Option String
  landmark : Option String
  deriving DecidableEq, Repr

/-- An element of `orderSchema.items`: the snapshot of one cart line. -/
structure OrderItem where
  product : ObjectId
  name : String
  image : String
  price : Int
  quantity : Int
  deriving DecidableEq, Repr

/-- A document of `orderSchema` (`src/models/order.model.js`). -/
structure Order where
  _id : ObjectId
  user : ObjectId
  items : List OrderItem
  shippingAddress : ShippingAddress
  paymentMethod : String
  paymentStatus : String
  orderStatus : String
  totalAmount : Int
  transactionId : Option String
  trackingId : Option String
  deriving DecidableEq, Repr

/-- Modelled from the spec: `src/models/wishlist.model.js` is not part of the
sources.  A wishlist holds the owning user id and a list of product
references. -/
structure Wishlist where
  _id : ObjectId
  userId : ObjectId
  products : List ObjectId
  deriving DecidableEq, Repr

/-- Modelled from the spec: `src/models/review.model.js` is not part of the
sources.  A review holds a product reference, a user reference, the
reviewer name snapshot, a rating and a comment. -/
structure Review where
  _id : ObjectId
  productId : ObjectId
  userId : ObjectId
  name : String
  rating : Int
  comment : String
  deriving DecidableEq, Repr

/-- The document store: one list per collection. -/
structure Db where
  products : List Product
  carts : List Cart
  orders : List Order
  wishlists : List Wishlist
  reviews : List Review
  deriving DecidableEq, Repr

/-! ## JavaScript truthiness -/

/-- `!s` for a request field that is a string or `undefined`. -/
def falsyStr : Option String → Bool
  | none => true
  | some s => s == ""

/-- `!n` for a request field that is a number or `undefined`. -/
def falsyNum : Option Int → Bool
  | none => true
  | some n => n == 0

/-! ## JavaScript numbers -/

/-- The number of low binary digits that a natural number gives up when it is
held with a significand of 53 binary digits; `fuel` bounds the search. -/
def dropBits : Nat → Nat → Nat
  | 0, _ => 0
  | fuel + 1, n => if n < 2 ^ 53 then 0 else dropBits fuel (n / 2) + 1

/-- The double nearest to a natural number: naturals below `2 ^ 53` are held
exactly, larger ones keep 53 significant binary digits, rounded to nearest,
ties to the even significand. -/
def roundNat (n : Nat) : Nat :=
  if n < 2 ^ 53 then n
  else
    let k := dropBits n n
    let q := n / 2 ^ k
    let r := n % 2 ^ k
    let half := 2 ^ (k - 1)
    if half < r ∨ (r = half ∧ q % 2 = 1) then (q + 1) * 2 ^ k else q * 2 ^ k

/-- The double nearest to an integer. -/
def roundDouble (z : Int) : Int :=
  if z < 0 then -((roundNat z.natAbs : Nat) : Int) else ((roundNat z.natAbs : Nat) : Int)

/-- The operator `+` on two numbers. -/
def jsAdd (a b : Int) : Int := roundDouble (a + b)

/-- The operator `*` on two numbers. -/
def jsMul (a b : Int) : Int := roundDouble (a * b)

/-! ## Schema validation (`src/models/order.model.js`) -/

/-- `enum` of `orderSchema.paymentMethod`. -/
def paymentMethodEnum : List String := ["COD", "ONLINE"]

/-- `enum` of `orderSchema.paymentStatus`. -/
def paymentStatusEnum : List String := ["Pending", "Paid", "Failed"]

/-- `enum` of `orderSchema.orderStatus`. -/
def orderStatusEnum : List String :=
  ["Pending", "Processing", "Shipped", "Delivered", "Cancelled", "Returned"]

/-- The validators of `orderSchema` that a well-typed order document can
fail: the three `enum` constraints. -/
def orderSchemaValid (o : Order) : Bool :=
  paymentMethodEnum.contains o.paymentMethod &&
  paymentStatusEnum.contains o.paymentStatus &&
  orderStatusEnum.contains o.orderStatus

/-- `newOrder.save()` for a new document: validate, then insert. -/
def saveNewOrder (orders : List Order) (o : Order) : Except String (List Order) :=
  if orderSchemaValid o then .ok (orders ++ [o]) else .error "Order validation failed"

/-- The update that `order.save()` issues for a loaded document: the stored
document with the same `_id` is replaced. -/
def replaceOrder (orders : List Order) (o : Order) : List Order :=
  orders.map (fun x => if x._id = o._id then o else x)

/-- `order.save()` for a loaded document: validate, then replace the stored
document with the same `_id`. -/
def saveOrder (orders : List Order) (o : Order) : Except String (List Order) :=
  if orderSchemaValid o then .ok (replaceOrder orders o)
  else .error "Order validation failed"

/-- `cart.save()` for a loaded cart: replace the stored document with the same
`_id`. -/
def saveCart (carts : List Cart) (c : Cart) : List Cart :=
  carts.map (fun x => if x._id = c._id then c else x)

/-- The cart that `CartModel.findOne` with the user id as filter returns. -/
def cartOf (db : Db) (userId : ObjectId) : Option Cart :=
  db.carts.find? (fun c => c.userId = userId)

/-! ## Order placement: `orderRouter.post("/")` -/

/-- A cart line after `.populate("items.productId", "name price image")`: the
reference is replaced by the product document, or by `null` when no product
has that id. -/
structure PopulatedItem where
  productId : Option Product
  quantity : Int
  deriving DecidableEq, Repr

/-- `populate` on one cart line. -/
def populateItem (products : List Product) (it : CartItem) : PopulatedItem :=
  { productId := products.find? (fun p => p._id = it.productId), quantity := it.quantity }

/-- The reducer `(sum, item) => sum + item.productId.price * item.quantity`;
reading `.price` of `null` throws. -/
def totalStep (sum : Int) (item : PopulatedItem) : Except String Int :=
  match item.productId with
  | none => .error "Cannot read properties of null (reading price)"
  | some p => .ok (jsAdd sum (jsMul p.price item.quantity))

/-- `cart.items.reduce(..., 0)`. -/
def totalAmount (items : List PopulatedItem) : Except String Int :=
  items.foldlM totalStep 0

/-- The mapper building one order item snapshot; reading `._id` of `null`
throws. -/
def snapshotItem (item : PopulatedItem) : Except String OrderItem :=
  match item.productId with
  | none => .error "Cannot read properties of null (reading _id)"
  | some p =>
    .ok { product := p._id, name := p.name, image := p.image, price := p.price,
          quantity := item.quantity }

/-- `cart.items.map(...)` building the order items snapshot. -/
def orderItems (items : List PopulatedItem) : Except String (List OrderItem) :=
  items.mapM snapshotItem

/-- The body of `POST /order`. -/
structure OrderBody where
  shippingAddress : Option ShippingAddress
  paymentMethod : Option String
  deriving DecidableEq, Repr

/-- The expression `new OrderModel(...)` of the handler; `orderStatus` takes
its schema default, the two optional identifiers stay unset.  `newId` is the
ObjectId generated for the document. -/
def newOrderDoc (user : Identity) (addr : ShippingAddress) (method : String)
    (total : Int) (snaps : List OrderItem) (newId : ObjectId) : Order :=
  { _id := newId, user := user.userId, items := snaps, shippingAddress := addr,
    paymentMethod := method, totalAmount := total,
    paymentStatus := if method = "COD" then "Pending" else "Paid",
    orderStatus := "Pending", transactionId := none, trackingId := none }

/-- The `try` block of `orderRouter.post("/")` from the total computation on,
for a non-empty populated cart. -/
def placeOrderTry (db : Db) (user : Identity) (addr : ShippingAddress) (method : String)
    (cart : Cart) (items : List PopulatedItem) (newId : ObjectId) :
    Except String (Response × Db) := do
  let total ← totalAmount items
  let snaps ← orderItems items
  let orders ← saveNewOrder db.orders (newOrderDoc user addr method total snaps newId)
  let cleared : Cart := { cart with items := [] }
  let carts := saveCart db.carts cleared
  pure (⟨201, "Order placed successfully"⟩, { db with orders := orders, carts := carts })

/-- Handler `orderRouter.post("/")`: place an order from the cart. -/
def postOrder (db : Db) (user : Identity) (body : OrderBody) (newId : ObjectId) :
    Response × Db :=
  match body.shippingAddress, body.paymentMethod with
  | some addr, some method =>
    if method = "" then
      (⟨400, "Shipping address and payment method are required"⟩, db)
    else
      match cartOf db user.userId with
      | none => (⟨400, "Cart is empty"⟩, db)
      | some cart =>
        if cart.items.length = 0 then (⟨400, "Cart is empty"⟩, db)
        else
          match placeOrderTry db user addr method cart
              (cart.items.map (populateItem db.products)) newId with
          | .ok r => r
          | .error _ => (⟨500, "Server error"⟩, db)
  | _, _ => (⟨400, "Shipping address and payment method are required"⟩, db)

/-! ## Order cancellation: `orderRouter.delete("/:id")` -/

/-- Handler `orderRouter.delete("/:id")`: cancel an order (owner or admin). -/
def deleteOrder (db : Db) (user : Identity) (id : ObjectId) : Response × Db :=
  match db.orders.find? (fun o => o._id = id) with
  | none => (⟨404, "Order not found"⟩, db)
  | some order =>
    if user.role ≠ "admin" ∧ order.user ≠ user.userId then
      (⟨403, "Not authorized to cancel this order"⟩, db)
    else if ["Shipped", "Delivered"].contains order.orderStatus then
      (⟨400, "Cannot cancel an order that has already been shipped or delivered"⟩, db)
    else
      match saveOrder db.orders { order with orderStatus := "Cancelled" } with
      | .ok orders => (⟨200, "Order cancelled successfully"⟩, { db with orders := orders })
      | .error _ => (⟨500, "Server error"⟩, db)

/-! ## Cart: `cartRouter.post("/")` -/

/-- The body of `POST /cart`. -/
structure CartBody where
  productId : Option String
  quantity : Option Int
  deriving DecidableEq, Repr

/-- The statement `existingItem.quantity += quantity` on the element that
`cart.items.find((item) => item.productId.toString() === productId)` returned:
the first line whose stored id equals the request string. -/
def bumpFirst (productId : String) (quantity : Int) : List CartItem → List CartItem
  | [] => []
  | it :: rest =>
    if it.productId = productId then
      { it with quantity := jsAdd it.quantity quantity } :: rest
    else it :: bumpFirst productId quantity rest

/-- The `else` branch of the add-item handler on the item list of an existing
cart: increment the line found by comparing the stored id with the request
string `productId`, or push a new line, whose product reference the schema
casts to the ObjectId `id`. -/
def addToItems (items : List CartItem) (productId : String) (id : ObjectId)
    (quantity : Int) : List CartItem :=
  match items.find? (fun it => it.productId = productId) with
  | some _ => bumpFirst productId quantity items
  | none => items ++ [{ productId := id, quantity := quantity }]

/-- Handler `cartRouter.post("/")`: add an item to the cart.  `castId` is the
cast of the request string to an ObjectId that `findById` and the cart schema
apply (a CastError is thrown inside the `try` block); `newId` is the ObjectId
generated for a cart document created by the request. -/
def postCart (castId : String → Option ObjectId) (db : Db) (user : Identity)
    (body : CartBody) (newId : ObjectId) : Response × Db :=
  if falsyStr body.productId || falsyNum body.quantity then
    (⟨400, "Product ID and quantity are required"⟩, db)
  else
    match body.productId, body.quantity with
    | some productId, some quantity =>
      match castId productId with
      | none => (⟨500, "Server error"⟩, db)
      | some id =>
        match db.products.find? (fun p => p._id = id) with
        | none => (⟨404, "Product not found"⟩, db)
        | some _ =>
          match cartOf db user.userId with
          | none =>
            (⟨201, "Product added to cart"⟩,
              { db with carts := db.carts ++
                  [{ _id := newId, userId := user.userId,
                     items := [{ productId := id, quantity := quantity }] }] })
          | some cart =>
            let updated : Cart :=
              { cart with items := addToItems cart.items productId id quantity }
            (⟨201, "Product added to cart"⟩, { db with carts := saveCart db.carts updated })
    | _, _ => (⟨400, "Product ID and quantity are required"⟩, db)

/-! ## Wishlist: `wishlistRouter.post("/")`, `wishlistRouter.delete("/:productId")` -/

/-- `wishlist.save()`: insert a new document, replace a loaded one. -/
def saveWishlist (wishlists : List Wishlist) (isNew : Bool) (w : Wishlist) : List Wishlist :=
  if isNew then wishlists ++ [w]
  else wishlists.map (fun x => if x._id = w._id then w else x)

/-- Handler `wishlistRouter.post("/")`: add a product to the wishlist.
`castId` is the cast of the request string to an ObjectId that `findById` and
`push` apply (a CastError is thrown inside the `try` block), while
`wishlist.products.includes(productId)` compares the stored ids with the
request string itself; `findById(undefined)` finds nothing.  `newId` is the
ObjectId generated for a wishlist document created by the request. -/
def postWishlist (castId : String → Option ObjectId) (db : Db) (user : Identity)
    (productId : Option String) (newId : ObjectId) : Response × Db :=
  match productId with
  | none => (⟨404, "Product not found"⟩, db)
  | some raw =>
    match castId raw with
    | none => (⟨500, "Server error"⟩, db)
    | some id =>
      match db.products.find? (fun p => p._id = id) with
      | none => (⟨404, "Product not found"⟩, db)
      | some _ =>
        let found := db.wishlists.find? (fun w => w.userId = user.userId)
        let wishlist : Wishlist :=
          match found with
          | some w => w
          | none => { _id := newId, userId := user.userId, products := [] }
        if wishlist.products.contains raw then
          (⟨400, "Product already in wishlist"⟩, db)
        else
          let updated : Wishlist := { wishlist with products := wishlist.products ++ [id] }
          (⟨200, "Product added to wishlist"⟩,
            { db with wishlists := saveWishlist db.wishlists found.isNone updated })

/-- Handler `wishlistRouter.delete("/:productId")`: remove a product from the
wishlist by filtering the product list. -/
def deleteWishlistItem (db : Db) (user : Identity) (productId : String) : Response × Db :=
  match db.wishlists.find? (fun w => w.userId = user.userId) with
  | none => (⟨404, "Wishlist not found"⟩, db)
  | some wishlist =>
    let updated : Wishlist :=
      { wishlist with products := wishlist.products.filter (fun id => id ≠ productId) }
    (⟨200, "Product removed from wishlist"⟩,
      { db with wishlists := saveWishlist db.wishlists false updated })

/-- The wishlist that `WishlistModel.findOne` with the user id as filter
returns. -/
def wishlistOf (db : Db) (userId : ObjectId) : Option Wishlist :=
  db.wishlists.find? (fun w => w.userId = userId)

/-! ## Reviews: `reviewRouter.delete("/:reviewId")`, `reviewRouter.patch("/:reviewId")` -/

/-- `ReviewModel.findByIdAndDelete(reviewId)`: remove the document with the
given id. -/
def deleteReviewById (reviewId : ObjectId) : List Review → List Review
  | [] => []
  | r :: rest => if r._id = reviewId then rest else r :: deleteReviewById reviewId rest

/-- The guard of both review handlers: the condition under which the request
is rejected with 403. -/
def reviewDenied (review : Review) (user : Identity) : Bool :=
  review.userId != user.userId && user.role != "admin" && user.role != "superadmin"

/-- Handler `reviewRouter.delete("/:reviewId")`. -/
def deleteReview (db : Db) (user : Identity) (reviewId : ObjectId) : Response × Db :=
  match db.reviews.find? (fun r => r._id = reviewId) with
  | none => (⟨404, "Review not found"⟩, db)
  | some review =>
    if reviewDenied review user then
      (⟨403, "You can only delete your own reviews"⟩, db)
    else
      (⟨200, "Review deleted successfully"⟩,
        { db with reviews := deleteReviewById reviewId db.reviews })

/-- The body of `PATCH /review/:reviewId`. -/
structure ReviewBody where
  rating : Option Int
  comment : Option String
  deriving DecidableEq, Repr

/-- The two conditional assignments of the update handler:
`if (rating !== undefined) review.rating = rating` and the same for
`comment`. -/
def applyReviewBody (review : Review) (body : ReviewBody) : Review :=
  let r1 := match body.rating with
    | some rating => { review with rating := rating }
    | none => review
  match body.comment with
  | some comment => { r1 with comment := comment }
  | none => r1

/-- `review.save()` for a loaded review: replace the stored document with the
same `_id`. -/
def saveReview (reviews : List Review) (r : Review) : List Review :=
  reviews.map (fun x => if x._id = r._id then r else x)

/-- Handler `reviewRouter.patch("/:reviewId")`. -/
def patchReview (db : Db) (user : Identity) (reviewId : ObjectId) (body : ReviewBody) :
    Response × Db :=
  match db.reviews.find? (fun r => r._id = reviewId) with
  | none => (⟨404, "Review not found"⟩, db)
  | some review =>
    if reviewDenied review user then
      (⟨403, "You can only update your own reviews"⟩, db)
    else
      (⟨200, "Review updated"⟩,
        { db with reviews := saveReview db.reviews (applyReviewBody review body) })

/-! ## Authentication gate: `auth` (`src/middlewares/auth.middleware.js`) -/

/-- What the gate does with a request: call `next()` with `req.user` set, or
answer itself. -/
inductive GateResult where
  | next (user : Identity)
  | respond (res : Response)
  deriving DecidableEq, Repr

/-- The call `s.split(" ")` on the characters of a string: the fields between
single spaces, empty fields included. -/
def splitSpaces : List Char → List (List Char)
  | [] => [[]]
  | c :: cs =>
    if c = ' ' then [] :: splitSpaces cs
    else
      match splitSpaces cs with
      | [] => [[c]]
      | w :: ws => (c :: w) :: ws

/-- The expression `req.headers.authorization?.split(" ")[1]`. -/
def bearerToken (authorization : Option String) : Option String :=
  match authorization with
  | none => none
  | some header => ((splitSpaces header.toList)[1]?).map String.mk

/-- The middleware `auth`.  `verify token secret` stands for
`jwt.verify(token, process.env.JWT_SECRET, callback)`: `none` when the
callback receives an error, `some decoded` otherwise. -/
def auth (verify : String → String → Option Identity) (secret : String)
    (authorization : Option String) : GateResult :=
  if falsyStr (bearerToken authorization) then
    .respond ⟨401, "No token provided"⟩
  else
    match bearerToken authorization with
    | none => .respond ⟨401, "No token provided"⟩
    | some token =>
      match verify token secret with
      | none => .respond ⟨401, "Invalid or expired token"⟩
      | some decoded => .next decoded

/-- A route registered as `router.method(path, auth, handler)`: the handler
runs only when the gate calls `next()`, and then on the attached identity.
The second component records whether the handler was invoked. -/
def guarded (verify : String → String → Option Identity) (secret : String)
    (handler : Identity → Response) (authorization : Option String) : Response × Bool :=
  match auth verify secret authorization with
  | .next user => (handler user, true)
  | .respond res => (res, false)

/-! ## Reference quantities and sample data -/

/-- The price that `populate` resolves for a cart line (0 when the product is
gone, a case in which the handler computes no total at all). -/
def resolvedPrice (products : List Product) (it : CartItem) : Int :=
  match products.find? (fun p => p._id = it.productId) with
  | some p => p.price
  | none => 0

/-- The sum over the cart lines of resolved price times quantity. -/
def cartTotal (products : List Product) (items : List CartItem) : Int :=
  (items.map (fun it => resolvedPrice products it * it.quantity)).sum

/-- The exact sum of price times quantity over a list of (price, quantity)
pairs. -/
def exactSum (lines : List (Int × Int)) : Int :=
  (lines.map (fun x => x.1 * x.2)).sum

/-- The sum of price times quantity over a list of (price, quantity) pairs as
double arithmetic accumulates it, line by line from 0. -/
def roundedSum (lines : List (Int × Int)) : Int :=
  lines.foldl (fun sum x => jsAdd sum (jsMul x.1 x.2)) 0

/-- Every line product and every running total of the list is a safe integer:
its magnitude is below `2 ^ 53`. -/
def safeLines (lines : List (Int × Int)) : Bool :=
  lines.all (fun x => decide ((x.1 * x.2).natAbs < 2 ^ 53)) &&
  (List.range (lines.length + 1)).all
    (fun k => decide ((exactSum (lines.take k)).natAbs < 2 ^ 53))

/-- The (resolved price, quantity) pairs of the lines of a cart. -/
def cartLines (products : List Product) (items : List CartItem) : List (Int × Int) :=
  items.map (fun it => (resolvedPrice products it, it.quantity))

/-- The (price, quantity) pairs of the item snapshots of an order. -/
def orderLines (o : Order) : List (Int × Int) :=
  o.items.map (fun s => (s.price, s.quantity))

/-- Sample cast of a request string to an ObjectId: a string of 24 hexadecimal
digits, of either case, is the id written in lower case; any other string is
refused. -/
def hexCast (s : String) : Option ObjectId :=
  if s.length = 24 ∧ s.toList.all (fun c => c.isDigit || ('a' ≤ c && c ≤ 'f') ||
      ('A' ≤ c && c ≤ 'F')) = true then
    some (String.mk (s.toList.map Char.toLower))
  else none

/-- Sample database with ObjectIds in hexadecimal form: one product, no cart,
and the wishlist of `u1` holding the product. -/
def hexDb : Db :=
  { products := [ { _id := "64b7f0c2a1d3e4f5a6b7c8d9", name := "Oud Noir",
                    brand := "Scentara", category := "Unisex", volume := 100, price := 10,
                    stock := 7, image := "oud.png" } ],
    carts := [], orders := [],
    wishlists := [ { _id := "64b7f0c2a1d3e4f5a6b7c8e0", userId := "u1",
                     products := ["64b7f0c2a1d3e4f5a6b7c8d9"] } ],
    reviews := [] }

/-- Sample cart of user `u1` on the ids of `hexCartDb`: two units of the first
product, one unit of the second. -/
def hexCart : Cart :=
  { _id := "64b7f0c2a1d3e4f5a6b7c8e1", userId := "u1",
    items := [ { productId := "64b7f0c2a1d3e4f5a6b7c8d9", quantity := 2 },
               { productId := "64b7f0c2a1d3e4f5a6b7c8da", quantity := 1 } ] }

/-- Sample database with ObjectIds in hexadecimal form: two products and the
cart `hexCart`. -/
def hexCartDb : Db :=
  { products := [ { _id := "64b7f0c2a1d3e4f5a6b7c8d9", name := "Oud Noir",
                    brand := "Scentara", category := "Unisex", volume := 100, price := 10,
                    stock := 7, image := "oud.png" },
                  { _id := "64b7f0c2a1d3e4f5a6b7c8da", name := "Citrus Bloom",
                    brand := "Scentara", category := "Women", volume := 50, price := 5,
                    stock := 3, image := "citrus.png" } ],
    carts := [hexCart], orders := [], wishlists := [], reviews := [] }

/-- Sample catalogue with a price at the edge of the safe integers: `2 ^ 53`,
and a price of 1. -/
def bigProducts : List Product :=
  [ { _id := "b1", name := "Attar Royal", brand := "Scentara", category := "Unisex",
      volume := 100, price := 9007199254740992, stock := 1, image := "attar.png" },
    { _id := "b2", name := "Sample Vial", brand := "Scentara", category := "Unisex",
      volume := 2, price := 1, stock := 9, image := "vial.png" } ]

/-- Sample cart of user `u1`: one unit of each product of `bigProducts`. -/
def bigCart : Cart :=
  { _id := "c2", userId := "u1",
    items := [ { productId := "b1", quantity := 1 }, { productId := "b2", quantity := 1 } ] }

/-- Sample database holding `bigProducts` and `bigCart`. -/
def bigDb : Db :=
  { products := bigProducts, carts := [bigCart], orders := [], wishlists := [], reviews := [] }

/-- The database after a successful order placement, spelled out. -/
def placedDb (db : Db) (cart : Cart) (o : Order) : Db :=
  { db with orders := db.orders ++ [o], carts := saveCart db.carts { cart with items := [] } }

/-- Sample catalogue: two products priced 10 and 5. -/
def sampleProducts : List Product :=
  [ { _id := "p1", name := "Oud Noir", brand := "Scentara", category := "Unisex",
      volume := 100, price := 10, stock := 7, image := "oud.png" },
    { _id := "p2", name := "Citrus Bloom", brand := "Scentara", category := "Women",
      volume := 50, price := 5, stock := 3, image := "citrus.png" } ]

/-- Sample cart of user `u1`: two units of `p1`, one unit of `p2`. -/
def sampleCart : Cart :=
  { _id := "c1", userId := "u1",
    items := [ { productId := "p1", quantity := 2 }, { productId := "p2", quantity := 1 } ] }

/-- Sample database holding the catalogue and the cart. -/
def sampleDb : Db :=
  { products := sampleProducts, carts := [sampleCart], orders := [], wishlists := [],
    reviews := [] }

/-- Sample shipping address. -/
def sampleAddress : ShippingAddress :=
  { label := some "Home", fullName := some "A. Buyer", phone := some "5550100",
    pincode := some "560001", state := some "KA", city := some "Bengaluru",
    addressLine := some "1 Main Road", landmark := none }

/-- Sample identity of the cart owner. -/
def sampleUser : Identity := { userId := "u1", role := "user" }

/-- Sample stored order of user `u1`, still pending. -/
def sampleOrder : Order :=
  { _id := "o7", user := "u1",
    items := [ { product := "p1", name := "Oud Noir", image := "oud.png", price := 10,
                 quantity := 2 } ],
    shippingAddress := sampleAddress, paymentMethod := "COD", paymentStatus := "Pending",
    orderStatus := "Pending", totalAmount := 20, transactionId := none, trackingId := none }

/-- Sample database holding the catalogue and one stored order. -/
def sampleOrderDb : Db :=
  { products := sampleProducts, carts := [], orders := [sampleOrder], wishlists := [],
    reviews := [] }

/-- Sample database in which `u1` has wished for `p1`. -/
def sampleWishDb : Db :=
  { products := sampleProducts, carts := [], orders := [],
    wishlists := [ { _id := "w1", userId := "u1", products := ["p1"] } ], reviews := [] }

/-- Sample review of `p1` written by `u1`. -/
def sampleReview : Review :=
  { _id := "r1", productId := "p1", userId := "u1", name := "A. Buyer", rating := 4,
    comment := "Lasts all day" }

/-- Sample database holding the catalogue and one review. -/
def sampleReviewDb : Db :=
  { products := sampleProducts, carts := [], orders := [], wishlists := [],
    reviews := [sampleReview] }

/-- Sample identity of another customer. -/
def otherUser : Identity := { userId := "u2", role := "user" }

/-- Sample token verifier: under the secret `s3cret` the token `good` decodes
to the identity of `u1`; nothing else verifies. -/
def sampleVerify (token secret : String) : Option Identity :=
  if token = "good" ∧ secret = "s3cret" then some sampleUser else none

/-- Sample `POST /order` body paying online. -/
def sampleOrderBody : OrderBody :=
  { shippingAddress := some sampleAddress, paymentMethod := some "ONLINE" }

/-! ## Order status and payment: `orderRouter.patch("/:id/status")`, `orderRouter.patch("/:id/payment")` -/

/-- `validStatuses` of the status handler. -/
def validOrderStatuses : List String :=
  ["Pending", "Processing", "Shipped", "Delivered", "Cancelled", "Returned"]

/-- `validStatuses` of the payment handler. -/
def validPaymentStatuses : List String := ["Pending", "Paid", "Failed", "Refunded"]

/-- `OrderModel.findByIdAndUpdate(id, { orderStatus: status }, { new: true })`
on the collection: the first document with the id gets the field set.  Update
validators are off unless requested, so nothing is validated. -/
def setOrderStatusById (id : ObjectId) (status : String) : List Order → List Order
  | [] => []
  | o :: rest =>
    if o._id = id then { o with orderStatus := status } :: rest
    else o :: setOrderStatusById id status rest

/-- Handler `orderRouter.patch("/:id/status")`: set the order status (admin
only).  `status` is `req.body.status`. -/
def patchOrderStatus (db : Db) (user : Identity) (id : ObjectId) (status : Option String) :
    Response × Db :=
  if user.role ≠ "admin" then (⟨403, "Access denied. Admins only."⟩, db)
  else
    match status with
    | none => (⟨400, "Invalid status value"⟩, db)
    | some s =>
      if validOrderStatuses.contains s then
        match db.orders.find? (fun o => o._id = id) with
        | none => (⟨404, "Order not found"⟩, db)
        | some _ =>
          (⟨200, "Order status updated successfully"⟩,
            { db with orders := setOrderStatusById id s db.orders })
      else (⟨400, "Invalid status value"⟩, db)

/-- The body of `PATCH /order/:id/payment`. -/
structure PaymentBody where
  paymentStatus : Option String
  transactionId : Option String
  deriving DecidableEq, Repr

/-- The two assignments of the payment handler: `order.paymentStatus =
paymentStatus` and `if (transactionId) order.transactionId = transactionId`. -/
def applyPayment (order : Order) (paymentStatus : String) (transactionId : Option String) :
    Order :=
  if falsyStr transactionId then { order with paymentStatus := paymentStatus }
  else { order with paymentStatus := paymentStatus, transactionId := transactionId }

/-- Handler `orderRouter.patch("/:id/payment")`: update the payment status
(owner or admin). -/
def patchPayment (db : Db) (user : Identity) (id : ObjectId) (body : PaymentBody) :
    Response × Db :=
  match db.orders.find? (fun o => o._id = id) with
  | none => (⟨404, "Order not found"⟩, db)
  | some order =>
    if user.role ≠ "admin" ∧ order.user ≠ user.userId then
      (⟨403, "Not authorized to update this order"⟩, db)
    else
      match body.paymentStatus with
      | none => (⟨400, "Invalid payment status"⟩, db)
      | some ps =>
        if validPaymentStatuses.contains ps then
          match saveOrder db.orders (applyPayment order ps body.transactionId) with
          | .ok orders =>
            (⟨200, "Payment status updated successfully"⟩, { db with orders := orders })
          | .error _ => (⟨500, "Server error"⟩, db)
        else (⟨400, "Invalid payment status"⟩, db)

/-! ## Cart: `cartRouter.patch("/update")`, `cartRouter.delete("/:productId")` -/

/-- `items.findIndex(pred)`: the position of the first element satisfying the
predicate; `none` stands for the result `-1`. -/
def findIndex {α : Type} (pred : α → Bool) : List α → Option Nat
  | [] => none
  | x :: xs => if pred x then some 0 else (findIndex pred xs).map (fun i => i + 1)

/-- The assignment `cart.items[itemIndex].quantity = quantity`. -/
def setQuantityAt (quantity : Int) : List CartItem → Nat → List CartItem
  | [], _ => []
  | it :: rest, 0 => { it with quantity := quantity } :: rest
  | it :: rest, i + 1 => it :: setQuantityAt quantity rest i

/-- Handler `cartRouter.patch("/update")`: set the quantity of a cart line. -/
def patchCart (db : Db) (user : Identity) (body : CartBody) : Response × Db :=
  if falsyStr body.productId || falsyNum body.quantity then
    (⟨400, "Invalid product or quantity"⟩, db)
  else
    match body.productId, body.quantity with
    | some productId, some quantity =>
      if quantity < 1 then (⟨400, "Invalid product or quantity"⟩, db)
      else
        match cartOf db user.userId with
        | none => (⟨404, "Cart not found"⟩, db)
        | some cart =>
          match findIndex (fun it => it.productId = productId) cart.items with
          | none => (⟨404, "Product not found in cart"⟩, db)
          | some itemIndex =>
            let updated : Cart := { cart with items := setQuantityAt quantity cart.items itemIndex }
            (⟨200, "Cart updated successfully"⟩, { db with carts := saveCart db.carts updated })
    | _, _ => (⟨400, "Invalid product or quantity"⟩, db)

/-- Handler `cartRouter.delete("/:productId")`: remove a line from the cart;
`cart.items.splice(itemIndex, 1)` erases the element at the index found. -/
def deleteCartItem (db : Db) (user : Identity) (productId : String) : Response × Db :=
  match cartOf db user.userId with
  | none => (⟨404, "Cart not found"⟩, db)
  | some cart =>
    match findIndex (fun it => it.productId = productId) cart.items with
    | none => (⟨404, "Product not found in cart"⟩, db)
    | some itemIndex =>
      let updated : Cart := { cart with items := cart.items.eraseIdx itemIndex }
      (⟨200, "Product removed from cart"⟩, { db with carts := saveCart db.carts updated })

/-! ## Users and addresses: `src/models/User.model.js`, `src/routes/user.routes.js` -/

/-- An element of `userSchema.addresses` (the embedded `addressSchema`). -/
structure Address where
  label : String
  fullName : String
  phone : String
  pincode : String
  state : String
  city : String
  addressLine : String
  landmark : Option String
  isDefault : Bool
  deriving DecidableEq, Repr

/-- A document of `userSchema`; `resetOTPExpires` is a time in milliseconds. -/
structure User where
  _id : ObjectId
  name : String
  email : String
  password : String
  role : String
  profileImage : String
  addresses : List Address
  resetOTP : Option String
  resetOTPExpires : Option Int
  deriving DecidableEq, Repr

/-- The body of the address routes: any subset of the address fields. -/
structure AddressBody where
  label : Option String
  fullName : Option String
  phone : Option String
  pincode : Option String
  state : Option String
  city : Option String
  addressLine : Option String
  landmark : Option String
  isDefault : Option Bool
  deriving DecidableEq, Repr

/-- The `required: true` validator of a string path: the value must be
present and not empty. -/
def requiredStr : Option String → Option String
  | some s => if s = "" then none else some s
  | none => none

/-- Casting an object to the embedded address schema and validating it on
save: defaults fill `label` and `isDefault`, the six required paths must be
present. -/
def castAddress (b : AddressBody) : Except String Address :=
  match requiredStr b.fullName, requiredStr b.phone, requiredStr b.pincode,
      requiredStr b.state, requiredStr b.city, requiredStr b.addressLine with
  | some fullName, some phone, some pincode, some state, some city, some addressLine =>
    .ok { label := b.label.getD "Home", fullName := fullName, phone := phone,
          pincode := pincode, state := state, city := city, addressLine := addressLine,
          landmark := b.landmark, isDefault := b.isDefault.getD false }
  | _, _, _, _, _, _ => .error "User validation failed"

/-- The object spread of the update handler: the fields of the stored
address, overridden by the fields present in the body. -/
def mergeAddress (old : Address) (b : AddressBody) : AddressBody :=
  { label := b.label <|> some old.label,
    fullName := b.fullName <|> some old.fullName,
    phone := b.phone <|> some old.phone,
    pincode := b.pincode <|> some old.pincode,
    state := b.state <|> some old.state,
    city := b.city <|> some old.city,
    addressLine := b.addressLine <|> some old.addressLine,
    landmark := b.landmark <|> old.landmark,
    isDefault := b.isDefault <|> some old.isDefault }

/-- The loop `user.addresses.forEach((addr) => (addr.isDefault = false))`. -/
def resetDefaults (addresses : List Address) : List Address :=
  addresses.map (fun a => { a with isDefault := false })

/-- `user.save()` for a loaded user: replace the stored document with the same
`_id`. -/
def saveUser (users : List User) (u : User) : List User :=
  users.map (fun x => if x._id = u._id then u else x)

/-- Handler `userRouter.post("/address")`: add an address. -/
def postAddress (users : List User) (user : Identity) (body : AddressBody) :
    Response × List User :=
  match users.find? (fun u => u._id = user.userId) with
  | none => (⟨404, "User not found"⟩, users)
  | some u =>
    let addresses := if body.isDefault = some true then resetDefaults u.addresses
      else u.addresses
    match castAddress body with
    | .error e => (⟨500, e⟩, users)
    | .ok a =>
      (⟨200, "Address added successfully"⟩,
        saveUser users { u with addresses := addresses ++ [a] })

/-- A JavaScript number as comparisons with integers and truncation see it:
not a number, an infinity, an integer, or a finite non-integer given by its
floor. -/
inductive JsNumber where
  | nan
  | posInf
  | negInf
  | int (i : Int)
  | frac (floor : Int)
  deriving DecidableEq, Repr

/-- The comparison `x < 0`. -/
def JsNumber.ltZero : JsNumber → Bool
  | .nan => false
  | .posInf => false
  | .negInf => true
  | .int i => i < 0
  | .frac f => f < 0

/-- The comparison `x >= n` for a length `n`. -/
def JsNumber.geLength (n : Nat) : JsNumber → Bool
  | .nan => false
  | .posInf => true
  | .negInf => false
  | .int i => (n : Int) ≤ i
  | .frac f => (n : Int) ≤ f

/-- The start position that `Array.prototype.splice(start, 1)` computes on an
array of length `len`: `ToIntegerOrInfinity(start)`, counted from the end when
negative, clamped to the array. -/
def spliceStart (len : Nat) : JsNumber → Nat
  | .nan => 0
  | .posInf => len
  | .negInf => 0
  | .int i => if i < 0 then ((len : Int) + i).toNat else min i.toNat len
  | .frac f =>
    if f < 0 then ((len : Int) + (f + 1)).toNat else min f.toNat len

/-- Handler `userRouter.delete("/address/:index")`: delete an address.
`index` is the path parameter, a string; `coerce` is the conversion to a
number that the comparisons and `splice` apply to it. -/
def deleteAddress (coerce : String → JsNumber) (users : List User) (user : Identity)
    (index : String) : Response × List User :=
  match users.find? (fun u => u._id = user.userId) with
  | none => (⟨404, "User not found"⟩, users)
  | some u =>
    if (coerce index).ltZero || (coerce index).geLength u.addresses.length then
      (⟨400, "Invalid address index"⟩, users)
    else
      let start := spliceStart u.addresses.length (coerce index)
      (⟨200, "Address deleted successfully"⟩,
        saveUser users { u with addresses := u.addresses.eraseIdx start })

/-- The element that the property access `user.addresses[index]` reaches for
a string key: the position whose decimal representation is the key, if any. -/
def propertyIndex (len : Nat) (key : String) : Option Nat :=
  (List.range len).find? (fun i => toString i = key)

/-- Handler `userRouter.put("/address/:index")`: update an address.  Reading
`._doc` of an element that the key does not reach throws. -/
def putAddress (coerce : String → JsNumber) (users : List User) (user : Identity)
    (index : String) (body : AddressBody) : Response × List User :=
  match users.find? (fun u => u._id = user.userId) with
  | none => (⟨404, "User not found"⟩, users)
  | some u =>
    if (coerce index).ltZero || (coerce index).geLength u.addresses.length then
      (⟨400, "Invalid address index"⟩, users)
    else
      let addresses := if body.isDefault = some true then resetDefaults u.addresses
        else u.addresses
      match propertyIndex addresses.length index with
      | none => (⟨500, "Cannot read properties of undefined (reading _doc)"⟩, users)
      | some i =>
        match addresses.get? i with
        | none => (⟨500, "Cannot read properties of undefined (reading _doc)"⟩, users)
        | some old =>
          match castAddress (mergeAddress old body) with
          | .error e => (⟨500, e⟩, users)
          | .ok a =>
            (⟨200, "Address updated successfully"⟩,
              saveUser users { u with addresses := addresses.set i a })

/-- The number of addresses flagged as default. -/
def defaultCount (addresses : List Address) : Nat :=
  addresses.countP (fun a => a.isDefault)

/-- The body of `POST /user/register`. -/
structure RegisterBody where
  name : Option String
  email : Option String
  password : Option String
  deriving DecidableEq, Repr

/-- The document `new UserModel({ name, email, password })` once its required
paths are present: `role` and `profileImage` take their schema defaults. -/
def newUserDoc (newId : ObjectId) (name email password : String) : User :=
  { _id := newId, name := name, email := email, password := password, role := "user",
    profileImage := "https://cdn-icons-png.flaticon.com/512/3135/3135715.png",
    addresses := [], resetOTP := none, resetOTPExpires := none }

/-- `newUser.save()`: the required paths must be present, and the unique index
on `email` rejects a second document with the same email. -/
def saveNewUser (users : List User) (newId : ObjectId) (name email : Option String)
    (password : String) : Except String (List User) :=
  match requiredStr name, requiredStr email, requiredStr (some password) with
  | some name, some email, some password =>
    if users.any (fun u => u.email = email) then .error "E11000 duplicate key error"
    else .ok (users ++ [newUserDoc newId name email password])
  | _, _, _ => .error "User validation failed"

/-- Handler `userRouter.post("/register")`.  `hash` stands for
`bcrypt.hash(password, 5)`, which rejects when the password is absent; `newId`
is the ObjectId generated for the new document.  An absent email matches no
stored user. -/
def postRegister (hash : String → String) (users : List User) (body : RegisterBody)
    (newId : ObjectId) : Response × List User :=
  match users.find? (fun u => some u.email = body.email) with
  | some _ => (⟨400, "User already exists"⟩, users)
  | none =>
    match body.password with
    | none => (⟨500, "Something went wrong"⟩, users)
    | some password =>
      match saveNewUser users newId body.name body.email (hash password) with
      | .ok users2 => (⟨201, "User registered successfully"⟩, users2)
      | .error _ => (⟨500, "Something went wrong"⟩, users)

/-- One `POST /user/register` request as the handler receives it. -/
structure Registration where
  body : RegisterBody
  newId : ObjectId
  deriving DecidableEq, Repr

/-- The user collection after serving a sequence of registration requests. -/
def runRegistrations (hash : String → String) (users : List User)
    (reqs : List Registration) : List User :=
  reqs.foldl (fun us r => (postRegister hash us r.body r.newId).2) users

/-! ## Failures of the data store -/

/-- What becomes of a request inside an `async` handler: a response is sent,
or an exception leaves the handler with no response sent. -/
inductive HandlerOutcome where
  | responded (res : Response)
  | escaped (error : String)
  deriving DecidableEq, Repr

/-- Handler `userRouter.get("/all-users")`, behind `auth` and `authorize`:
`const users = await UserModel.find(); res.json(users);` with no `try`.
`find` is the outcome of the query. -/
def getAllUsers (find : Except String (List User)) : HandlerOutcome :=
  match find with
  | .ok _ => .responded ⟨200, ""⟩
  | .error e => .escaped e

/-- Handler `userRouter.get("/me")`, whose body is wrapped in `try`/`catch`.
`findById` is the outcome of the query. -/
def getMe (findById : Except String (Option User)) : HandlerOutcome :=
  match findById with
  | .ok none => .responded ⟨404, "User not found"⟩
  | .ok (some _) => .responded ⟨200, ""⟩
  | .error _ => .responded ⟨500, "Server error"⟩

/-! ## Sample data for users -/

/-- White space as the conversion of a string to a number skips it, by code
point. -/
def isJsWhiteSpace (c : Char) : Bool :=
  [9, 10, 11, 12, 13, 32, 160, 5760, 8232, 8233, 8239, 8287, 12288, 65279].contains c.toNat ||
  (8192 ≤ c.toNat && c.toNat ≤ 8202)

/-- The value of a character as a digit, letters counting from ten. -/
def digitOf (c : Char) : Option Nat :=
  if c.isDigit then some (c.toNat - 48)
  else if 'a' ≤ c ∧ c ≤ 'z' then some (c.toNat - 87)
  else if 'A' ≤ c ∧ c ≤ 'Z' then some (c.toNat - 55)
  else none

/-- The natural number that a non-empty sequence of digits spells in a base;
`none` when the sequence is empty or holds a character that is no digit of the
base. -/
def digitsValue (base : Nat) (cs : List Char) : Option Nat :=
  if cs = [] then none
  else
    cs.foldl (fun acc c =>
      match acc, digitOf c with
      | some n, some d => if d < base then some (base * n + d) else none
      | _, _ => none) (some 0)

/-- An unsigned decimal literal: digits, an optional point with digits, an
optional exponent.  The result `(d, scale)` stands for `d * 10 ^ scale`. -/
def unsignedDecimal (cs : List Char) : Option (Nat × Int) :=
  let mantissa := cs.takeWhile (fun c => c ≠ 'e' ∧ c ≠ 'E')
  let exponent := cs.dropWhile (fun c => c ≠ 'e' ∧ c ≠ 'E')
  let whole := mantissa.takeWhile (fun c => c ≠ '.')
  let fraction := (mantissa.dropWhile (fun c => c ≠ '.')).drop 1
  if (whole = [] ∧ fraction = []) ∨ ¬ (whole.all Char.isDigit = true)
      ∨ ¬ (fraction.all Char.isDigit = true) then none
  else
    let d := (digitsValue 10 (whole ++ fraction)).getD 0
    match exponent with
    | [] => some (d, -(fraction.length : Int))
    | _ :: rest =>
      match rest with
      | '-' :: ds =>
        (digitsValue 10 ds).map (fun e => (d, -(e : Int) - (fraction.length : Int)))
      | '+' :: ds =>
        (digitsValue 10 ds).map (fun e => (d, (e : Int) - (fraction.length : Int)))
      | ds => (digitsValue 10 ds).map (fun e => (d, (e : Int) - (fraction.length : Int)))

/-- The number `d * 10 ^ scale`, negated when `negative`, as an integer or as
a non-integer given by its floor. -/
def classifyDecimal (negative : Bool) (d : Nat) (scale : Int) : JsNumber :=
  if 0 ≤ scale then
    .int (if negative then -((d * 10 ^ scale.toNat : Nat) : Int)
      else ((d * 10 ^ scale.toNat : Nat) : Int))
  else if d % 10 ^ (-scale).toNat = 0 then
    .int (if negative then -((d / 10 ^ (-scale).toNat : Nat) : Int)
      else ((d / 10 ^ (-scale).toNat : Nat) : Int))
  else
    .frac (if negative then -((d / 10 ^ (-scale).toNat : Nat) : Int) - 1
      else ((d / 10 ^ (-scale).toNat : Nat) : Int))

/-- A signed decimal literal or a signed `Infinity`, on the characters after
the sign. -/
def signedLiteral (negative : Bool) (cs : List Char) : JsNumber :=
  if cs = "Infinity".toList then (if negative then .negInf else .posInf)
  else
    match unsignedDecimal cs with
    | some (d, scale) => classifyDecimal negative d scale
    | none => .nan

/-- A numeric string without its surrounding white space: the empty string is
0, then a literal in base 16, 8 or 2, or a signed literal; any other string is
not a number. -/
def numericLiteral : List Char → JsNumber
  | [] => .int 0
  | '0' :: 'x' :: ds => ((digitsValue 16 ds).map (fun n => JsNumber.int n)).getD .nan
  | '0' :: 'X' :: ds => ((digitsValue 16 ds).map (fun n => JsNumber.int n)).getD .nan
  | '0' :: 'o' :: ds => ((digitsValue 8 ds).map (fun n => JsNumber.int n)).getD .nan
  | '0' :: 'O' :: ds => ((digitsValue 8 ds).map (fun n => JsNumber.int n)).getD .nan
  | '0' :: 'b' :: ds => ((digitsValue 2 ds).map (fun n => JsNumber.int n)).getD .nan
  | '0' :: 'B' :: ds => ((digitsValue 2 ds).map (fun n => JsNumber.int n)).getD .nan
  | '-' :: cs => signedLiteral true cs
  | '+' :: cs => signedLiteral false cs
  | cs => signedLiteral false cs

/-- Sample coercion of a path parameter to a number, after the grammar of
numeric strings: surrounding white space is dropped and the rest is read as a
numeric literal.  The value of a literal is classified exactly; its final
rounding to a double is not modelled. -/
def digitsToNumber (s : String) : JsNumber :=
  numericLiteral
    ((((s.toList.dropWhile isJsWhiteSpace).reverse).dropWhile isJsWhiteSpace).reverse)

/-- Sample address, flagged as default. -/
def homeAddress : Address :=
  { label := "Home", fullName := "A. Buyer", phone := "5550100", pincode := "560001",
    state := "KA", city := "Bengaluru", addressLine := "1 Main Road", landmark := none,
    isDefault := true }

/-- Sample address, not default. -/
def officeAddress : Address :=
  { label := "Office", fullName := "A. Buyer", phone := "5550101", pincode := "560002",
    state := "KA", city := "Bengaluru", addressLine := "2 Park Street", landmark := none,
    isDefault := false }

/-- Sample stored user `u1` with two addresses. -/
def sampleUserDoc : User :=
  { _id := "u1", name := "A. Buyer", email := "buyer@example.com", password := "h:secret",
    role := "user", profileImage := "avatar.png", addresses := [homeAddress, officeAddress],
    resetOTP := none, resetOTPExpires := none }

/-- Sample user collection. -/
def sampleUsers : List User := [sampleUserDoc]

/-- Sample password hash. -/
def sampleHash (password : String) : String := "h:" ++ password

/-- Sample identity with the admin role. -/
def adminUser : Identity := { userId := "a1", role := "admin" }

/-- The database after saving the cart with a new item list. -/
def withCartItems (db : Db) (cart : Cart) (items : List CartItem) : Db :=
  { db with carts := saveCart db.carts { cart with items := items } }

/-- The user collection after saving a user with a new address list. -/
def withAddresses (users : List User) (u : User) (addresses : List Address) : List User :=
  saveUser users { u with addresses := addresses }

end Scentara

/-! # Theorems -/

namespace Scentara

/-! ## Collection lemmas -/

/-- Replacing by `_id` the document that `find?` returns keeps it the first
match, provided the replacement still satisfies the filter. -/
theorem find?_map_replace {α : Type} (p : α → Bool) (same : α → Prop) [DecidablePred same]
    (c d : α) (hd : p d = true) :
    ∀ l : List α, l.find? p = some c → same c →
      (l.map (fun x => if same x then d else x)).find? p = some d := by
  intro l
  induction l with
  | nil => intro h; simp at h
  | cons x xs ih =>
    intro h hc
    by_cases hx : p x = true
    · have hxc : x = c := by simpa [List.find?, hx] using h
      subst hxc
      simp [List.find?, hc, hd]
    · have hx2 : p x = false := by simpa using hx
      have hrest : xs.find? p = some c := by simpa [List.find?, hx2] using h
      by_cases hs : same x
      · simp [List.find?, hs, hd]
      · have := ih hrest hc
        simpa [List.find?, hs, hx2] using this

/-! ## Order placement -/

/-- The snapshot map of the handler succeeds, with one snapshot per line, when
every line resolves. -/
theorem orderItems_ok (products : List Product) :
    ∀ items : List CartItem,
      (∀ it ∈ items, (products.find? (fun p => p._id = it.productId)).isSome = true) →
      ∃ snaps, orderItems (items.map (populateItem products)) = .ok snaps
        ∧ snaps.length = items.length := by
  intro items
  induction items with
  | nil => intro _; exact ⟨[], by simp [orderItems]; rfl, rfl⟩
  | cons it rest ih =>
    intro h
    obtain ⟨p, hp⟩ := Option.isSome_iff_exists.mp (h it (List.mem_cons_self _ _))
    obtain ⟨snaps, hs, hl⟩ := ih (fun x hx => h x (List.mem_cons_of_mem _ hx))
    refine ⟨{ product := p._id, name := p.name, image := p.image, price := p.price,
              quantity := it.quantity } :: snaps, ?_, by simp [hl]⟩
    simp only [orderItems] at hs
    simp only [orderItems, List.map_cons, List.mapM_cons, hs]
    simp [snapshotItem, populateItem, hp, bind, Except.bind, pure, Except.pure]

/-- Every run of the order-placement handler either answers without touching
the database and with a status other than 201, or answers 201 having inserted
one order built from the cart and cleared the cart. -/
theorem postOrder_cases (db : Db) (user : Identity) (body : OrderBody) (newId : ObjectId) :
    ((postOrder db user body newId).2 = db ∧ (postOrder db user body newId).1.status ≠ 201) ∨
    ∃ addr method cart total snaps,
      body = ⟨some addr, some method⟩ ∧ method ≠ "" ∧
      cartOf db user.userId = some cart ∧ cart.items ≠ [] ∧
      totalAmount (cart.items.map (populateItem db.products)) = .ok total ∧
      orderItems (cart.items.map (populateItem db.products)) = .ok snaps ∧
      orderSchemaValid (newOrderDoc user addr method total snaps newId) = true ∧
      postOrder db user body newId
        = (⟨201, "Order placed successfully"⟩,
            placedDb db cart (newOrderDoc user addr method total snaps newId)) := by
  obtain ⟨sa, pm⟩ := body
  cases sa with
  | none => left; cases pm <;> simp [postOrder]
  | some addr =>
    cases pm with
    | none => left; simp [postOrder]
    | some method =>
      by_cases hm : method = ""
      · left; simp [postOrder, hm]
      · cases hc : cartOf db user.userId with
        | none => left; simp [postOrder, hm, hc]
        | some cart =>
          by_cases he : cart.items.length = 0
          · left; simp [postOrder, hm, hc, he]
          · have hne : cart.items ≠ [] := by
              intro h; exact he (by simp [h])
            cases ht : totalAmount (cart.items.map (populateItem db.products)) with
            | error e =>
              left
              simp [postOrder, hm, hc, he, placeOrderTry, ht, bind, Except.bind]
            | ok total =>
              cases hs : orderItems (cart.items.map (populateItem db.products)) with
              | error e =>
                left
                simp [postOrder, hm, hc, he, placeOrderTry, ht, hs, bind, Except.bind]
              | ok snaps =>
                by_cases hv : orderSchemaValid (newOrderDoc user addr method total snaps newId) = true
                · right
                  refine ⟨addr, method, cart, total, snaps, rfl, hm, rfl, hne, ht, hs, hv, ?_⟩
                  simp [postOrder, hm, hc, he, placeOrderTry, ht, hs, saveNewOrder, hv,
                    bind, Except.bind, pure, Except.pure, placedDb]
                · left
                  simp [postOrder, hm, hc, he, placeOrderTry, ht, hs, saveNewOrder, hv,
                    bind, Except.bind]

/-- After a successful placement the filter by user id finds the cleared
cart. -/
theorem cartOf_placedDb (db : Db) (userId : ObjectId) (cart : Cart) (o : Order)
    (hcart : cartOf db userId = some cart) :
    cartOf (placedDb db cart o) userId = some { cart with items := [] } := by
  have hu : cart.userId = userId := by
    have := List.find?_some hcart
    simpa using this
  have hfind : db.carts.find? (fun c => decide (c.userId = userId)) = some cart := hcart
  unfold cartOf placedDb saveCart
  exact find?_map_replace (fun c => decide (c.userId = userId)) (fun x => x._id = cart._id)
    cart { cart with items := [] } (by simp [hu]) db.carts hfind rfl

/-- C2. Whenever `POST /order` answers 201, the cart that the user had before
is still stored afterwards, found under the same owner and with the same
identifier, its item list is empty, and no cart document was removed. -/
theorem postOrder_clears_cart (db : Db) (user : Identity) (body : OrderBody) (newId : ObjectId)
    (h : (postOrder db user body newId).1.status = 201) :
    ∃ cart, cartOf db user.userId = some cart ∧
      cartOf (postOrder db user body newId).2 user.userId = some { cart with items := [] } ∧
      cart.userId = user.userId ∧
      (postOrder db user body newId).2.carts.length = db.carts.length := by
  rcases postOrder_cases db user body newId with ⟨_, hst⟩ | ⟨addr, method, cart, total, snaps,
      _, _, hc, _, _, _, _, hpost⟩
  · exact absurd h hst
  · refine ⟨cart, hc, ?_, ?_, ?_⟩
    · rw [hpost]
      exact cartOf_placedDb db user.userId cart _ hc
    · have := List.find?_some hc
      simpa using this
    · rw [hpost]
      simp [placedDb, saveCart]

/-- C2 on the sample database: the placement answers 201 and the cart of `u1`
remains, emptied. -/
theorem postOrder_clears_cart_witness :
    (postOrder sampleDb sampleUser sampleOrderBody "o1").1.status = 201 ∧
    ∃ cart, cartOf sampleDb sampleUser.userId = some cart ∧
      cartOf (postOrder sampleDb sampleUser sampleOrderBody "o1").2 sampleUser.userId
        = some { cart with items := [] } ∧
      cart.userId = sampleUser.userId ∧
      (postOrder sampleDb sampleUser sampleOrderBody "o1").2.carts.length
        = sampleDb.carts.length :=
  ⟨by decide, postOrder_clears_cart sampleDb sampleUser sampleOrderBody "o1" (by decide)⟩

/-- C3. With shipping address and payment method present, if the user has no
cart or the cart has no items, `POST /order` answers 400 "Cart is empty" and
the database (orders and carts alike) is left as it was. -/
theorem postOrder_empty_cart (db : Db) (user : Identity) (addr : ShippingAddress)
    (method : String) (newId : ObjectId) (hm : method ≠ "")
    (h : cartOf db user.userId = none ∨
      ∃ cart, cartOf db user.userId = some cart ∧ cart.items = []) :
    postOrder db user ⟨some addr, some method⟩ newId = (⟨400, "Cart is empty"⟩, db) := by
  rcases h with h | ⟨cart, hc, he⟩
  · simp [postOrder, hm, h]
  · simp [postOrder, hm, hc, he]

/-- C3 on a database without carts. -/
theorem postOrder_empty_cart_witness :
    postOrder sampleOrderDb sampleUser ⟨some sampleAddress, some "COD"⟩ "o1"
      = (⟨400, "Cart is empty"⟩, sampleOrderDb) :=
  postOrder_empty_cart sampleOrderDb sampleUser sampleAddress "COD" "o1" (by decide)
    (Or.inl (by decide))

/-! ## Order cancellation -/

/-- C5. For a stored, schema-valid order and a requester who is an admin or
the owner, `DELETE /order/:id` answers 400 and leaves the database unchanged
exactly when the order status is "Shipped" or "Delivered"; in every other
status it answers 200 and the stored order becomes the same order with
`orderStatus` set to "Cancelled", every other field kept. -/
theorem deleteOrder_cancel (db : Db) (user : Identity) (id : ObjectId) (order : Order)
    (hfind : db.orders.find? (fun o => o._id = id) = some order)
    (hvalid : orderSchemaValid order = true)
    (hallowed : user.role = "admin" ∨ order.user = user.userId) :
    (((deleteOrder db user id).1.status = 400 ∧ (deleteOrder db user id).2 = db) ↔
      (order.orderStatus = "Shipped" ∨ order.orderStatus = "Delivered")) ∧
    (¬ (order.orderStatus = "Shipped" ∨ order.orderStatus = "Delivered") →
      (deleteOrder db user id).1 = ⟨200, "Order cancelled successfully"⟩ ∧
      (deleteOrder db user id).2
        = { db with orders := replaceOrder db.orders { order with orderStatus := "Cancelled" } } ∧
      (deleteOrder db user id).2.orders.find? (fun o => o._id = id)
        = some { order with orderStatus := "Cancelled" }) := by
  have hid : order._id = id := by
    have := List.find?_some hfind
    simpa using this
  have hguard : ¬ (user.role ≠ "admin" ∧ order.user ≠ user.userId) := by
    rintro ⟨h1, h2⟩
    rcases hallowed with h | h
    · exact h1 h
    · exact h2 h
  have hv2 : orderSchemaValid { order with orderStatus := "Cancelled" } = true := by
    simp only [orderSchemaValid, Bool.and_eq_true] at hvalid ⊢
    exact ⟨hvalid.1, by simp [orderStatusEnum]⟩
  by_cases hs : order.orderStatus = "Shipped" ∨ order.orderStatus = "Delivered"
  · have hres : deleteOrder db user id
        = (⟨400, "Cannot cancel an order that has already been shipped or delivered"⟩, db) := by
      simp only [deleteOrder, hfind]
      rw [if_neg hguard]
      rcases hs with h | h <;> simp [h]
    refine ⟨⟨fun _ => hs, fun _ => by simp [hres]⟩, fun hn => absurd hs hn⟩
  · have hcont : ¬ (["Shipped", "Delivered"].contains order.orderStatus = true) := by
      intro hc
      apply hs
      simpa using hc
    have hres : deleteOrder db user id
        = (⟨200, "Order cancelled successfully"⟩,
            { db with orders :=
                replaceOrder db.orders { order with orderStatus := "Cancelled" } }) := by
      simp only [deleteOrder, hfind]
      rw [if_neg hguard, if_neg hcont]
      simp [saveOrder, hv2]
    refine ⟨⟨fun h => ?_, fun h => absurd h hs⟩, fun _ => ⟨by rw [hres], by rw [hres], ?_⟩⟩
    · rw [hres] at h
      simp at h
    · rw [hres]
      unfold replaceOrder
      exact find?_map_replace (fun o => decide (o._id = id)) (fun x => x._id = order._id)
        order { order with orderStatus := "Cancelled" } (by simp [hid]) db.orders hfind rfl

/-- C5 on the sample order, which is pending: its owner cancels it. -/
theorem deleteOrder_cancel_witness :
    (deleteOrder sampleOrderDb sampleUser "o7").1 = ⟨200, "Order cancelled successfully"⟩ ∧
    (deleteOrder sampleOrderDb sampleUser "o7").2.orders.find? (fun o => o._id = "o7")
      = some { sampleOrder with orderStatus := "Cancelled" } :=
  have h := (deleteOrder_cancel sampleOrderDb sampleUser "o7" sampleOrder (by decide) (by decide)
    (Or.inr (by decide))).2 (by decide)
  ⟨h.1, h.2.2⟩

/-! ## Wishlist -/

/-- C8. When the requester has a wishlist that does not contain the product
id, `DELETE /wishlist/:productId` answers 200 and the wishlist found for the
requester afterwards is the same document, its product list equal to the list
before. -/
theorem deleteWishlistItem_absent (db : Db) (user : Identity) (productId : String)
    (w : Wishlist) (hw : wishlistOf db user.userId = some w) (habs : productId ∉ w.products) :
    (deleteWishlistItem db user productId).1 = ⟨200, "Product removed from wishlist"⟩ ∧
    wishlistOf (deleteWishlistItem db user productId).2 user.userId = some w ∧
    (deleteWishlistItem db user productId).2.wishlists.length = db.wishlists.length := by
  have hf : db.wishlists.find? (fun x => decide (x.userId = user.userId)) = some w := hw
  have hu : w.userId = user.userId := by
    have := List.find?_some hf
    simpa using this
  have hfilter : w.products.filter (fun id => decide (id ≠ productId)) = w.products := by
    apply List.filter_eq_self.mpr
    intro a ha
    have : a ≠ productId := fun h => habs (h ▸ ha)
    simpa using this
  have hres : deleteWishlistItem db user productId
      = (⟨200, "Product removed from wishlist"⟩,
          { db with wishlists := saveWishlist db.wishlists false w }) := by
    simp only [deleteWishlistItem, hf, hfilter]
  rw [hres]
  refine ⟨rfl, ?_, ?_⟩
  · unfold wishlistOf saveWishlist
    simp only [Bool.false_eq_true, if_false]
    exact find?_map_replace (fun x => decide (x.userId = user.userId))
      (fun x => x._id = w._id) w w (by simp [hu]) db.wishlists hf rfl
  · simp [saveWishlist]

/-- C8 on the sample wishlist, which holds only `p1`: removing `p2` succeeds
and changes nothing. -/
theorem deleteWishlistItem_absent_witness :
    (deleteWishlistItem sampleWishDb sampleUser "p2").1
      = ⟨200, "Product removed from wishlist"⟩ ∧
    wishlistOf (deleteWishlistItem sampleWishDb sampleUser "p2").2 sampleUser.userId
      = some { _id := "w1", userId := "u1", products := ["p1"] } ∧
    (deleteWishlistItem sampleWishDb sampleUser "p2").2.wishlists.length
      = sampleWishDb.wishlists.length :=
  deleteWishlistItem_absent sampleWishDb sampleUser "p2"
    { _id := "w1", userId := "u1", products := ["p1"] } (by decide) (by decide)

/-! ## Reviews -/

/-- Deleting by id removes exactly the document that `findById` returns. -/
theorem deleteReviewById_eq_erase (reviewId : ObjectId) (review : Review) :
    ∀ reviews : List Review,
      reviews.find? (fun r => decide (r._id = reviewId)) = some review →
      deleteReviewById reviewId reviews = reviews.erase review := by
  intro reviews
  induction reviews with
  | nil => intro h; simp at h
  | cons x xs ih =>
    intro h
    have hid : review._id = reviewId := by
      have := List.find?_some h
      simpa using this
    by_cases hx : x._id = reviewId
    · have hxr : x = review := by simpa [List.find?, hx] using h
      subst hxr
      simp [deleteReviewById, hx]
    · have hrest : xs.find? (fun r => decide (r._id = reviewId)) = some review := by
        simpa [List.find?, hx] using h
      have hne : x ≠ review := by
        intro hxr
        apply hx
        rw [hxr, hid]
      have hbeq : (x == review) = false := by simpa using hne
      simp [deleteReviewById, hx, List.erase_cons, hbeq, ih hrest]

/-- The guard of the review handlers rejects exactly the requesters that are
neither the owner nor an admin nor a superadmin. -/
theorem reviewDenied_iff (review : Review) (user : Identity) :
    reviewDenied review user = true ↔
      ¬ (review.userId = user.userId ∨ user.role = "admin" ∨ user.role = "superadmin") := by
  simp [reviewDenied, not_or, and_assoc]

/-! ## Authentication gate -/

/-- Splitting always yields at least one field. -/
theorem splitSpaces_ne_nil : ∀ cs : List Char, splitSpaces cs ≠ [] := by
  intro cs
  induction cs with
  | nil => simp [splitSpaces]
  | cons c cs ih =>
    by_cases hc : c = ' '
    · simp [splitSpaces, hc]
    · cases hs : splitSpaces cs with
      | nil => exact absurd hs ih
      | cons w ws => simp [splitSpaces, hc, hs]

/-- No field produced by the split contains a space. -/
theorem splitSpaces_no_space : ∀ cs : List Char, ∀ w ∈ splitSpaces cs, ' ' ∉ w := by
  intro cs
  induction cs with
  | nil => intro w hw; simp [splitSpaces] at hw; simp [hw]
  | cons c cs ih =>
    intro w hw
    by_cases hc : c = ' '
    · simp only [splitSpaces, hc, if_true, List.mem_cons] at hw
      rcases hw with hw | hw
      · simp [hw]
      · exact ih w hw
    · cases hs : splitSpaces cs with
      | nil => exact absurd hs (splitSpaces_ne_nil cs)
      | cons v vs =>
        simp only [splitSpaces, hc, if_false, hs, List.mem_cons] at hw
        rcases hw with hw | hw
        · subst hw
          intro hmem
          rcases List.mem_cons.mp hmem with h | h
          · exact hc h.symm
          · exact ih v (by simp [hs]) h
        · exact ih w (by simp [hs, hw])

/-- Joining the fields of the split with single spaces gives the input back. -/
theorem splitSpaces_join : ∀ cs : List Char, [' '].intercalate (splitSpaces cs) = cs := by
  intro cs
  induction cs with
  | nil => simp [splitSpaces, List.intercalate]
  | cons c cs ih =>
    cases hs : splitSpaces cs with
    | nil => exact absurd hs (splitSpaces_ne_nil cs)
    | cons v vs =>
      rw [hs] at ih
      by_cases hc : c = ' '
      · simp only [splitSpaces, hc, if_true, hs]
        simp only [List.intercalate, List.intersperse, List.flatten] at ih ⊢
        simp [ih]
      · simp only [splitSpaces, hc, if_false, hs]
        cases vs with
        | nil =>
          simp only [List.intercalate, List.intersperse, List.flatten] at ih ⊢
          simp at ih ⊢
          exact ih
        | cons u us =>
          simp only [List.intercalate, List.intersperse, List.flatten] at ih ⊢
          simp at ih ⊢
          exact ih

/-- The gate in closed form: it calls `next()` with the decoded payload when a
non-empty token is present and verifies, and answers 401 otherwise. -/
theorem auth_eq (verify : String → String → Option Identity) (secret : String)
    (authorization : Option String) :
    auth verify secret authorization =
      match bearerToken authorization with
      | none => .respond ⟨401, "No token provided"⟩
      | some token =>
        if token = "" then .respond ⟨401, "No token provided"⟩
        else match verify token secret with
          | none => .respond ⟨401, "Invalid or expired token"⟩
          | some decoded => .next decoded := by
  unfold auth
  cases hb : bearerToken authorization with
  | none => simp [falsyStr]
  | some token =>
    by_cases ht : token = ""
    · simp [falsyStr, ht]
    · simp [falsyStr, ht]

/-- C10. The gate calls `next()` with identity `user` attached exactly when
the second space-separated field of the Authorization header is a non-empty
token whose verification against the secret yields `user`.  When the token is
missing it answers 401 "No token provided", when verification fails 401
"Invalid or expired token"; a guarded handler runs exactly in the first case,
on the decoded identity, and otherwise the response is the 401 of the gate. -/
theorem auth_gate (verify : String → String → Option Identity) (secret : String)
    (authorization : Option String) :
    (∀ user, auth verify secret authorization = .next user ↔
      ∃ token, bearerToken authorization = some token ∧ token ≠ "" ∧
        verify token secret = some user) ∧
    ((bearerToken authorization = none ∨ bearerToken authorization = some "") →
      auth verify secret authorization = .respond ⟨401, "No token provided"⟩) ∧
    (∀ token, bearerToken authorization = some token → token ≠ "" →
      verify token secret = none →
      auth verify secret authorization = .respond ⟨401, "Invalid or expired token"⟩) ∧
    (∀ handler : Identity → Response,
      ((guarded verify secret handler authorization).2 = true ↔
        ∃ token user, bearerToken authorization = some token ∧ token ≠ "" ∧
          verify token secret = some user) ∧
      (∀ token user, bearerToken authorization = some token → token ≠ "" →
        verify token secret = some user →
        guarded verify secret handler authorization = (handler user, true)) ∧
      ((guarded verify secret handler authorization).2 = false →
        (guarded verify secret handler authorization).1.status = 401)) := by
  have hnext : ∀ user, auth verify secret authorization = .next user ↔
      ∃ token, bearerToken authorization = some token ∧ token ≠ "" ∧
        verify token secret = some user := by
    intro user
    rw [auth_eq]
    cases hb : bearerToken authorization with
    | none => simp
    | some token =>
      by_cases ht : token = ""
      · simp [ht]
      · cases hv : verify token secret with
        | none => simp [ht, hv]
        | some decoded => simp [ht, hv]
  refine ⟨hnext, ?_, ?_, ?_⟩
  · intro h
    rw [auth_eq]
    rcases h with h | h <;> simp [h]
  · intro token hb ht hv
    rw [auth_eq]
    simp [hb, ht, hv]
  · intro handler
    refine ⟨?_, ?_, ?_⟩
    · unfold guarded
      cases ha : auth verify secret authorization with
      | next user =>
        obtain ⟨token, h1, h2, h3⟩ := (hnext user).mp ha
        simp only [true_iff]
        exact ⟨token, user, h1, h2, h3⟩
      | respond res =>
        simp only [Bool.false_eq_true, false_iff]
        rintro ⟨token, user, h1, h2, h3⟩
        have := (hnext user).mpr ⟨token, h1, h2, h3⟩
        rw [ha] at this
        cases this
    · intro token user h1 h2 h3
      have := (hnext user).mpr ⟨token, h1, h2, h3⟩
      simp [guarded, this]
    · unfold guarded
      rw [auth_eq]
      cases hb : bearerToken authorization with
      | none => simp
      | some token =>
        by_cases ht : token = ""
        · simp [ht]
        · cases hv : verify token secret with
          | none => simp [ht, hv]
          | some decoded => simp [ht, hv]

/-- C10 on sample headers: `Bearer good` passes the gate with the identity of
`u1`, a bare `Bearer` has no token, and `Bearer bad` fails verification. -/
theorem auth_gate_witness :
    auth sampleVerify "s3cret" (some "Bearer good") = .next sampleUser ∧
    auth sampleVerify "s3cret" (some "Bearer") = .respond ⟨401, "No token provided"⟩ ∧
    auth sampleVerify "s3cret" (some "Bearer bad")
      = .respond ⟨401, "Invalid or expired token"⟩ :=
  ⟨((auth_gate sampleVerify "s3cret" (some "Bearer good")).1 sampleUser).mpr
      ⟨"good", by decide, by decide, by decide⟩,
    (auth_gate sampleVerify "s3cret" (some "Bearer")).2.1 (Or.inl (by decide)),
    (auth_gate sampleVerify "s3cret" (some "Bearer bad")).2.2.1 "bad" (by decide) (by decide)
      (by decide)⟩

/-! ## Order placement: the item snapshots -/

/-- The relation between a cart line and its snapshot in the order: the line
resolves to a product, and the snapshot carries the id, name, image and price
of that product and the quantity of the line. -/
theorem orderItems_forall₂ (products : List Product) :
    ∀ (items : List CartItem) (snaps : List OrderItem),
      orderItems (items.map (populateItem products)) = .ok snaps →
      List.Forall₂ (fun (line : CartItem) (snap : OrderItem) =>
        ∃ p, products.find? (fun x => x._id = line.productId) = some p ∧
          snap = { product := p._id, name := p.name, image := p.image, price := p.price,
                   quantity := line.quantity }) items snaps := by
  intro items
  induction items with
  | nil =>
    intro snaps h
    simp only [orderItems, List.map_nil, List.mapM_nil] at h
    cases h
    exact List.Forall₂.nil
  | cons it rest ih =>
    intro snaps h
    simp only [orderItems, List.map_cons, List.mapM_cons] at h
    cases hp : products.find? (fun x => decide (x._id = it.productId)) with
    | none =>
      have hsi : snapshotItem (populateItem products it)
          = .error "Cannot read properties of null (reading _id)" := by
        simp [snapshotItem, populateItem, hp]
      rw [hsi] at h
      simp [bind, Except.bind] at h
    | some p =>
      have hsi : snapshotItem (populateItem products it)
          = .ok { product := p._id, name := p.name, image := p.image, price := p.price,
                  quantity := it.quantity } := by
        simp [snapshotItem, populateItem, hp]
      cases hr : List.mapM snapshotItem (rest.map (populateItem products)) with
      | error e =>
        rw [hsi, hr] at h
        simp [bind, Except.bind] at h
      | ok tail =>
        rw [hsi, hr] at h
        simp only [bind, Except.bind, pure, Except.pure] at h
        cases h
        exact List.Forall₂.cons ⟨p, hp, rfl⟩ (ih tail hr)

/-! ## Payment status and order status -/

/-- The payment assignments touch neither the payment method nor the order
status, and set the payment status. -/
theorem applyPayment_fields (order : Order) (ps : String) (tx : Option String) :
    (applyPayment order ps tx).paymentStatus = ps ∧
    (applyPayment order ps tx).paymentMethod = order.paymentMethod ∧
    (applyPayment order ps tx).orderStatus = order.orderStatus ∧
    (applyPayment order ps tx)._id = order._id := by
  unfold applyPayment
  split <;> exact ⟨rfl, rfl, rfl, rfl⟩

/-- For a stored, schema-valid order and a requester who is an admin or the
owner, the payment handler stores each of "Pending", "Paid" and "Failed". -/
theorem patchPayment_schema_status (db : Db) (user : Identity) (id : ObjectId) (order : Order)
    (ps : String) (tx : Option String)
    (hfind : db.orders.find? (fun o => o._id = id) = some order)
    (hvalid : orderSchemaValid order = true)
    (hallowed : user.role = "admin" ∨ order.user = user.userId)
    (hps : ps ∈ paymentStatusEnum) :
    patchPayment db user id ⟨some ps, tx⟩
      = (⟨200, "Payment status updated successfully"⟩,
          { db with orders := replaceOrder db.orders (applyPayment order ps tx) }) := by
  have hguard : ¬ (user.role ≠ "admin" ∧ order.user ≠ user.userId) := by
    rintro ⟨h1, h2⟩
    rcases hallowed with h | h
    · exact h1 h
    · exact h2 h
  have hin : validPaymentStatuses.contains ps = true := by
    simp only [paymentStatusEnum, List.mem_cons, List.mem_singleton] at hps
    rcases hps with h | h | h | h
    · subst h; decide
    · subst h; decide
    · subst h; decide
    · simp at h
  obtain ⟨f1, f2, f3, _⟩ := applyPayment_fields order ps tx
  have hv : orderSchemaValid (applyPayment order ps tx) = true := by
    simp only [orderSchemaValid, Bool.and_eq_true] at hvalid ⊢
    rw [f1, f2, f3]
    exact ⟨⟨hvalid.1.1, by simpa using hps⟩, hvalid.2⟩
  simp only [patchPayment, hfind]
  rw [if_neg hguard]
  simp only [hin, if_true, saveOrder, hv]

/-- For a stored order and a requester who is an admin or the owner, the
payment handler answers 500 to "Refunded": the handler accepts the value, the
schema enum rejects it on save, and the database is left as it was. -/
theorem patchPayment_refunded_general (db : Db) (user : Identity) (id : ObjectId)
    (order : Order) (tx : Option String)
    (hfind : db.orders.find? (fun o => o._id = id) = some order)
    (hallowed : user.role = "admin" ∨ order.user = user.userId) :
    patchPayment db user id ⟨some "Refunded", tx⟩ = (⟨500, "Server error"⟩, db) := by
  have hguard : ¬ (user.role ≠ "admin" ∧ order.user ≠ user.userId) := by
    rintro ⟨h1, h2⟩
    rcases hallowed with h | h
    · exact h1 h
    · exact h2 h
  have hin : validPaymentStatuses.contains "Refunded" = true := by decide
  obtain ⟨f1, _, _, _⟩ := applyPayment_fields order "Refunded" tx
  have hv : orderSchemaValid (applyPayment order "Refunded" tx) = false := by
    have hno : paymentStatusEnum.contains "Refunded" = false := by decide
    simp only [orderSchemaValid, f1, hno, Bool.and_false, Bool.false_and]
  simp only [patchPayment, hfind]
  rw [if_neg hguard]
  simp only [hin, if_true, saveOrder, hv, Bool.false_eq_true, if_false]

/-- C13, the failing request. "Refunded" is in the list the payment handler
accepts and not in the enum of the order schema; the owner of the sample order
asking for it gets 500 and the order keeps its payment status. -/
theorem patchPayment_refunded :
    "Refunded" ∈ validPaymentStatuses ∧ "Refunded" ∉ paymentStatusEnum ∧
    patchPayment sampleOrderDb sampleUser "o7" ⟨some "Refunded", none⟩
      = (⟨500, "Server error"⟩, sampleOrderDb) := by
  decide

/-- Updating by id rewrites the document that `findById` returns. -/
theorem find?_setOrderStatusById (id : ObjectId) (s : String) (order : Order) :
    ∀ orders : List Order,
      orders.find? (fun o => decide (o._id = id)) = some order →
      (setOrderStatusById id s orders).find? (fun o => decide (o._id = id))
        = some { order with orderStatus := s } := by
  intro orders
  induction orders with
  | nil => intro h; simp at h
  | cons x xs ih =>
    intro h
    by_cases hx : x._id = id
    · have hxo : x = order := by simpa [List.find?, hx] using h
      subst hxo
      simp [setOrderStatusById, hx, List.find?]
    · have hrest : xs.find? (fun o => decide (o._id = id)) = some order := by
        simpa [List.find?, hx] using h
      simp [setOrderStatusById, hx, List.find?, ih hrest]

/-- C14. For a stored order, whatever its current status: a requester with
role "admin" and a status of the enum get 200 and the stored order becomes
the same order with `orderStatus` set to that status; a requester with any
other role gets 403; an admin sending a status outside the enum, or none, gets
400; in the last two cases the database is unchanged. -/
theorem patchOrderStatus_spec (db : Db) (user : Identity) (id : ObjectId) (order : Order)
    (status : Option String)
    (hfind : db.orders.find? (fun o => o._id = id) = some order) :
    (user.role = "admin" → ∀ s ∈ validOrderStatuses,
      patchOrderStatus db user id (some s)
        = (⟨200, "Order status updated successfully"⟩,
            { db with orders := setOrderStatusById id s db.orders }) ∧
      (patchOrderStatus db user id (some s)).2.orders.find? (fun o => o._id = id)
        = some { order with orderStatus := s }) ∧
    (user.role ≠ "admin" →
      patchOrderStatus db user id status = (⟨403, "Access denied. Admins only."⟩, db)) ∧
    (user.role = "admin" → (∀ s, status = some s → s ∉ validOrderStatuses) →
      patchOrderStatus db user id status = (⟨400, "Invalid status value"⟩, db)) := by
  refine ⟨?_, ?_, ?_⟩
  · intro hadmin s hs
    have hres : patchOrderStatus db user id (some s)
        = (⟨200, "Order status updated successfully"⟩,
            { db with orders := setOrderStatusById id s db.orders }) := by
      simp [patchOrderStatus, hadmin, hs, hfind]
    refine ⟨hres, ?_⟩
    rw [hres]
    exact find?_setOrderStatusById id s order db.orders hfind
  · intro hrole
    simp [patchOrderStatus, hrole]
  · intro hadmin hout
    cases status with
    | none => simp [patchOrderStatus, hadmin]
    | some s =>
      have hno := hout s rfl
      simp [patchOrderStatus, hadmin, hno]

/-- C14 on the sample order: an admin sets it to "Delivered", and on the
result sets it back to "Pending". -/
theorem patchOrderStatus_spec_witness :
    (patchOrderStatus sampleOrderDb adminUser "o7" (some "Delivered")).2.orders.find?
        (fun o => o._id = "o7") = some { sampleOrder with orderStatus := "Delivered" } ∧
    (patchOrderStatus (patchOrderStatus sampleOrderDb adminUser "o7" (some "Delivered")).2
        adminUser "o7" (some "Pending")).2.orders.find? (fun o => o._id = "o7")
      = some { sampleOrder with orderStatus := "Pending" } :=
  ⟨((patchOrderStatus_spec sampleOrderDb adminUser "o7" sampleOrder none (by decide)).1
      (by decide) "Delivered" (by decide)).2,
    ((patchOrderStatus_spec (patchOrderStatus sampleOrderDb adminUser "o7" (some "Delivered")).2
      adminUser "o7" { sampleOrder with orderStatus := "Delivered" } none (by decide)).1
      (by decide) "Pending" (by decide)).2⟩

/-! ## Cart: updating and removing a line -/

/-- The index search finds nothing exactly when no element satisfies the
predicate. -/
theorem findIndex_none {α : Type} (pred : α → Bool) :
    ∀ l : List α, (∀ x ∈ l, pred x = false) → findIndex pred l = none := by
  intro l
  induction l with
  | nil => intro _; rfl
  | cons x xs ih =>
    intro h
    have hx := h x (List.mem_cons_self _ _)
    simp [findIndex, hx, ih (fun y hy => h y (List.mem_cons_of_mem _ hy))]

/-- The index search returns the position of the first element satisfying the
predicate. -/
theorem findIndex_first {α : Type} (pred : α → Bool) (x : α) (post : List α)
    (hx : pred x = true) :
    ∀ pre : List α, (∀ y ∈ pre, pred y = false) →
      findIndex pred (pre ++ x :: post) = some pre.length := by
  intro pre
  induction pre with
  | nil => intro _; simp [findIndex, hx]
  | cons y ys ih =>
    intro h
    have hy := h y (List.mem_cons_self _ _)
    simp [findIndex, hy, ih (fun z hz => h z (List.mem_cons_of_mem _ hz))]

/-- A list with an element satisfying the predicate splits at the first such
element. -/
theorem exists_first_split {α : Type} (pred : α → Bool) :
    ∀ l : List α, (∃ x ∈ l, pred x = true) →
      ∃ pre x post, l = pre ++ x :: post ∧ (∀ y ∈ pre, pred y = false) ∧ pred x = true := by
  intro l
  induction l with
  | nil => rintro ⟨x, hx, _⟩; simp at hx
  | cons a as ih =>
    rintro ⟨x, hx, hpx⟩
    by_cases ha : pred a = true
    · exact ⟨[], a, as, rfl, by simp, ha⟩
    · have ha2 : pred a = false := by simpa using ha
      have hxas : x ∈ as := by
        rcases List.mem_cons.mp hx with h | h
        · subst h; rw [hpx] at ha2; cases ha2
        · exact h
      obtain ⟨pre, y, post, hl, hpre, hy⟩ := ih ⟨x, hxas, hpx⟩
      refine ⟨a :: pre, y, post, by simp [hl], ?_, hy⟩
      intro z hz
      rcases List.mem_cons.mp hz with h | h
      · subst h; exact ha2
      · exact hpre z h

/-- Assigning the quantity at the position after a prefix changes only the
element there. -/
theorem setQuantityAt_split (q : Int) (line : CartItem) (post : List CartItem) :
    ∀ pre : List CartItem,
      setQuantityAt q (pre ++ line :: post) pre.length
        = pre ++ { line with quantity := q } :: post := by
  intro pre
  induction pre with
  | nil => rfl
  | cons y ys ih => simp [setQuantityAt, ih]

/-- Erasing at the position after a prefix removes only the element there. -/
theorem eraseIdx_split {α : Type} (x : α) (post : List α) :
    ∀ pre : List α, (pre ++ x :: post).eraseIdx pre.length = pre ++ post := by
  intro pre
  induction pre with
  | nil => rfl
  | cons y ys ih => simp [List.eraseIdx, ih]

/-- After saving an update of the cart found for a user, the filter by user id
finds the updated cart. -/
theorem cartOf_saveCart (db : Db) (userId : ObjectId) (cart : Cart) (items : List CartItem)
    (hcart : cartOf db userId = some cart) :
    cartOf (withCartItems db cart items) userId = some { cart with items := items } := by
  have hfind : db.carts.find? (fun c => decide (c.userId = userId)) = some cart := hcart
  have hu : cart.userId = userId := by
    have := List.find?_some hfind
    simpa using this
  unfold cartOf withCartItems saveCart
  exact find?_map_replace (fun c => decide (c.userId = userId)) (fun x => x._id = cart._id)
    cart { cart with items := items } (by simp [hu]) db.carts hfind rfl

/-- C15, the claim as stated fails. On the sample cart, a request whose
quantity is 5 and whose product id is absent, or is the empty string, names
no line of the cart; the handler answers 400 "Invalid product or quantity",
not 404. -/
theorem patchCart_product_guard :
    cartOf sampleDb sampleUser.userId = some sampleCart ∧
    (∀ it ∈ sampleCart.items, some it.productId ≠ (none : Option String)) ∧
    (∀ it ∈ sampleCart.items, it.productId ≠ "") ∧
    patchCart sampleDb sampleUser ⟨none, some 5⟩
      = (⟨400, "Invalid product or quantity"⟩, sampleDb) ∧
    patchCart sampleDb sampleUser ⟨some "", some 5⟩
      = (⟨400, "Invalid product or quantity"⟩, sampleDb) ∧
    (patchCart sampleDb sampleUser ⟨none, some 5⟩).1.status ≠ 404 ∧
    (patchCart sampleDb sampleUser ⟨some "", some 5⟩).1.status ≠ 404 := by
  decide

/-- C15, amended. For a user with a cart: if the product id is missing or
empty, or the quantity is missing, zero or less than 1, `PATCH /cart/update`
answers 400; otherwise, if no line of the cart has the product, it answers
404; the database is unchanged in both cases.  Otherwise it answers 200 and
the cart is the former cart with the quantity of the first line of the
product set to the requested quantity, all other lines kept in place. -/
theorem patchCart_spec (db : Db) (user : Identity) (body : CartBody) (cart : Cart)
    (hcart : cartOf db user.userId = some cart) :
    ((falsyStr body.productId = true ∨ falsyNum body.quantity = true ∨
        (∃ q, body.quantity = some q ∧ q < 1)) →
      patchCart db user body = (⟨400, "Invalid product or quantity"⟩, db)) ∧
    (∀ p q, body = ⟨some p, some q⟩ → p ≠ "" → 1 ≤ q →
      ((∀ it ∈ cart.items, it.productId ≠ p) →
        patchCart db user body = (⟨404, "Product not found in cart"⟩, db)) ∧
      ((∃ it ∈ cart.items, it.productId = p) →
        ∃ pre line post, cart.items = pre ++ line :: post ∧
          (∀ it ∈ pre, it.productId ≠ p) ∧ line.productId = p ∧
          (patchCart db user body).1 = ⟨200, "Cart updated successfully"⟩ ∧
          cartOf (patchCart db user body).2 user.userId
            = some { cart with items := pre ++ { line with quantity := q } :: post })) := by
  constructor
  · intro h
    obtain ⟨pid, qty⟩ := body
    rcases h with h | h | ⟨q, hq, hlt⟩
    · simp only [patchCart]
      simp only at h
      simp [h]
    · simp only [patchCart]
      simp only at h
      simp [h]
    · simp only at hq
      subst hq
      cases pid with
      | none => simp [patchCart, falsyStr]
      | some p =>
        by_cases hf : (falsyStr (some p) || falsyNum (some q)) = true
        · simp [patchCart, hf]
        · simp [patchCart, hf, hlt]
  · intro p q hb hp hq
    subst hb
    have hf : (falsyStr (some p) || falsyNum (some q)) = false := by
      have hq0 : q ≠ 0 := by omega
      simp [falsyStr, falsyNum, hp, hq0]
    have hnlt : ¬ q < 1 := by omega
    constructor
    · intro hno
      have hidx : findIndex (fun it => decide (it.productId = p)) cart.items = none :=
        findIndex_none _ cart.items (fun x hx => by simpa using hno x hx)
      simp [patchCart, hf, hnlt, hcart, hidx]
    · intro hex
      obtain ⟨pre, line, post, hl, hpre, hline⟩ :=
        exists_first_split (fun it => decide (it.productId = p)) cart.items
          (by obtain ⟨it, hit, hitp⟩ := hex; exact ⟨it, hit, by simpa using hitp⟩)
      have hlp : line.productId = p := by simpa using hline
      have hidx : findIndex (fun it => decide (it.productId = p)) cart.items
          = some pre.length := by
        rw [hl]; exact findIndex_first _ line post hline pre hpre
      have hset : setQuantityAt q cart.items pre.length
          = pre ++ { line with quantity := q } :: post := by
        rw [hl]; exact setQuantityAt_split q line post pre
      have hres : patchCart db user ⟨some p, some q⟩
          = (⟨200, "Cart updated successfully"⟩,
              withCartItems db cart (pre ++ { line with quantity := q } :: post)) := by
        simp [patchCart, hf, hnlt, hcart, hidx, hset, withCartItems]
      refine ⟨pre, line, post, hl, fun it hit => by simpa using hpre it hit, hlp, ?_, ?_⟩
      · rw [hres]
      · rw [hres]
        exact cartOf_saveCart db user.userId cart _ hcart

/-- C15, amended, on the sample cart: the quantity of `p2` is set to 4. -/
theorem patchCart_spec_witness :
    ∃ pre line post, sampleCart.items = pre ++ line :: post ∧
      (∀ it ∈ pre, it.productId ≠ "p2") ∧ line.productId = "p2" ∧
      (patchCart sampleDb sampleUser ⟨some "p2", some 4⟩).1
        = ⟨200, "Cart updated successfully"⟩ ∧
      cartOf (patchCart sampleDb sampleUser ⟨some "p2", some 4⟩).2 sampleUser.userId
        = some { sampleCart with items := pre ++ { line with quantity := 4 } :: post } :=
  ((patchCart_spec sampleDb sampleUser ⟨some "p2", some 4⟩ sampleCart (by decide)).2
    "p2" 4 rfl (by decide) (by decide)).2 ⟨⟨"p2", 1⟩, by decide, rfl⟩

/-- C16. For a user with a cart: if no line of the cart has the product,
`DELETE /cart/:productId` answers 404 and the database is unchanged;
otherwise it answers 200 and the cart is the former cart with the first line
of the product removed, one line shorter, all other lines kept in order. -/
theorem deleteCartItem_spec (db : Db) (user : Identity) (productId : String) (cart : Cart)
    (hcart : cartOf db user.userId = some cart) :
    ((∀ it ∈ cart.items, it.productId ≠ productId) →
      deleteCartItem db user productId = (⟨404, "Product not found in cart"⟩, db)) ∧
    ((∃ it ∈ cart.items, it.productId = productId) →
      ∃ pre line post, cart.items = pre ++ line :: post ∧
        (∀ it ∈ pre, it.productId ≠ productId) ∧ line.productId = productId ∧
        (deleteCartItem db user productId).1 = ⟨200, "Product removed from cart"⟩ ∧
        cartOf (deleteCartItem db user productId).2 user.userId
          = some { cart with items := pre ++ post } ∧
        (pre ++ post).length + 1 = cart.items.length) := by
  constructor
  · intro hno
    have hidx : findIndex (fun it => decide (it.productId = productId)) cart.items = none :=
      findIndex_none _ cart.items (fun x hx => by simpa using hno x hx)
    simp [deleteCartItem, hcart, hidx]
  · intro hex
    obtain ⟨pre, line, post, hl, hpre, hline⟩ :=
      exists_first_split (fun it => decide (it.productId = productId)) cart.items
        (by obtain ⟨it, hit, hitp⟩ := hex; exact ⟨it, hit, by simpa using hitp⟩)
    have hidx : findIndex (fun it => decide (it.productId = productId)) cart.items
        = some pre.length := by
      rw [hl]; exact findIndex_first _ line post hline pre hpre
    have herase : cart.items.eraseIdx pre.length = pre ++ post := by
      rw [hl]; exact eraseIdx_split line post pre
    have hres : deleteCartItem db user productId
        = (⟨200, "Product removed from cart"⟩, withCartItems db cart (pre ++ post)) := by
      simp [deleteCartItem, hcart, hidx, herase, withCartItems]
    refine ⟨pre, line, post, hl, fun it hit => by simpa using hpre it hit,
      by simpa using hline, ?_, ?_, ?_⟩
    · rw [hres]
    · rw [hres]
      exact cartOf_saveCart db user.userId cart _ hcart
    · rw [hl]; simp; omega

/-- C16 on the sample cart: removing `p1` leaves the line of `p2`. -/
theorem deleteCartItem_spec_witness :
    ∃ pre line post, sampleCart.items = pre ++ line :: post ∧
      (∀ it ∈ pre, it.productId ≠ "p1") ∧ line.productId = "p1" ∧
      (deleteCartItem sampleDb sampleUser "p1").1 = ⟨200, "Product removed from cart"⟩ ∧
      cartOf (deleteCartItem sampleDb sampleUser "p1").2 sampleUser.userId
        = some { sampleCart with items := pre ++ post } ∧
      (pre ++ post).length + 1 = sampleCart.items.length :=
  (deleteCartItem_spec sampleDb sampleUser "p1" sampleCart (by decide)).2
    ⟨⟨"p1", 2⟩, by decide, rfl⟩

/-! ## Addresses -/

/-- After resetting, no address is flagged as default. -/
theorem defaultCount_resetDefaults (l : List Address) : defaultCount (resetDefaults l) = 0 := by
  unfold defaultCount resetDefaults
  induction l with
  | nil => rfl
  | cons a as ih => simp [List.countP_cons, ih]

/-- Pushing an address adds its own flag to the count. -/
theorem defaultCount_push (l : List Address) (a : Address) :
    defaultCount (l ++ [a]) = defaultCount l + (if a.isDefault = true then 1 else 0) := by
  unfold defaultCount
  simp [List.countP_append, List.countP_cons]

/-- Removing an address does not raise the count. -/
theorem defaultCount_eraseIdx_le (l : List Address) (i : Nat) :
    defaultCount (l.eraseIdx i) ≤ defaultCount l :=
  List.Sublist.countP_le _ (List.eraseIdx_sublist l i)

/-- Replacing an address trades the flag of the old element for the flag of
the new one. -/
theorem defaultCount_set (a : Address) :
    ∀ (l : List Address) (i : Nat) (old : Address), l.get? i = some old →
      defaultCount (l.set i a) + (if old.isDefault = true then 1 else 0)
        = defaultCount l + (if a.isDefault = true then 1 else 0) := by
  intro l
  induction l with
  | nil => intro i old h; simp at h
  | cons x xs ih =>
    intro i old h
    cases i with
    | zero =>
      simp only [List.get?] at h
      cases h
      simp only [List.set, defaultCount, List.countP_cons]
      omega
    | succ j =>
      simp only [List.get?] at h
      have := ih j old h
      simp only [List.set, defaultCount, List.countP_cons] at this ⊢
      omega

/-- The address that casting yields takes its flag from the body, `false`
when the body has none. -/
theorem castAddress_isDefault (b : AddressBody) (a : Address) (h : castAddress b = .ok a) :
    a.isDefault = b.isDefault.getD false := by
  unfold castAddress at h
  split at h
  · cases h; rfl
  · cases h

/-- After saving an update of the user found by id, `findById` returns the
updated user. -/
theorem find?_withAddresses (users : List User) (id : ObjectId) (u : User)
    (addresses : List Address)
    (hfind : users.find? (fun x => decide (x._id = id)) = some u) :
    (withAddresses users u addresses).find? (fun x => decide (x._id = id))
      = some { u with addresses := addresses } := by
  have hid : u._id = id := by
    have := List.find?_some hfind
    simpa using this
  unfold withAddresses saveUser
  exact find?_map_replace (fun x => decide (x._id = id)) (fun x => x._id = u._id)
    u { u with addresses := addresses } (by simp [hid]) users hfind rfl

/-- The add handler leaves the users as they were or stores an address list
with at most one default. -/
theorem postAddress_cases (users : List User) (user : Identity) (body : AddressBody) (u : User)
    (hfind : users.find? (fun x => decide (x._id = user.userId)) = some u)
    (hinv : defaultCount u.addresses ≤ 1) :
    (postAddress users user body).2 = users ∨
    ∃ addresses, defaultCount addresses ≤ 1 ∧
      (postAddress users user body).2 = withAddresses users u addresses := by
  simp only [postAddress, hfind]
  cases hc : castAddress body with
  | error e => left; rfl
  | ok a =>
    right
    have hflag := castAddress_isDefault body a hc
    by_cases hd : body.isDefault = some true
    · refine ⟨resetDefaults u.addresses ++ [a], ?_, by simp [hd, withAddresses]⟩
      rw [defaultCount_push, defaultCount_resetDefaults]
      split <;> omega
    · refine ⟨u.addresses ++ [a], ?_, by simp [hd, withAddresses]⟩
      have hfalse : a.isDefault = false := by
        rw [hflag]
        cases hb : body.isDefault with
        | none => rfl
        | some v =>
          cases v with
          | false => rfl
          | true => exact absurd hb hd
      rw [defaultCount_push, hfalse]
      simpa using hinv

/-- The update handler leaves the users as they were or stores an address
list with at most one default. -/
theorem putAddress_cases (coerce : String → JsNumber) (users : List User) (user : Identity)
    (index : String) (body : AddressBody) (u : User)
    (hfind : users.find? (fun x => decide (x._id = user.userId)) = some u)
    (hinv : defaultCount u.addresses ≤ 1) :
    (putAddress coerce users user index body).2 = users ∨
    ∃ addresses, defaultCount addresses ≤ 1 ∧
      (putAddress coerce users user index body).2 = withAddresses users u addresses := by
  simp only [putAddress, hfind]
  split
  · left; rfl
  · by_cases hd : body.isDefault = some true
    · simp only [hd, if_true]
      cases hk : propertyIndex (resetDefaults u.addresses).length index with
      | none => left; rfl
      | some i =>
        cases hg : (resetDefaults u.addresses).get? i with
        | none => left; simp only [hg]
        | some old =>
          cases hc : castAddress (mergeAddress old body) with
          | error e => left; simp only [hg, hc]
          | ok a =>
            right
            refine ⟨(resetDefaults u.addresses).set i a, ?_, by simp only [hg, hc, withAddresses]⟩
            have hset := defaultCount_set a (resetDefaults u.addresses) i old hg
            rw [defaultCount_resetDefaults] at hset
            split at hset <;> split at hset <;> omega
    · simp only [hd, if_false]
      cases hk : propertyIndex u.addresses.length index with
      | none => left; rfl
      | some i =>
        cases hg : u.addresses.get? i with
        | none => left; simp only [hg]
        | some old =>
          cases hc : castAddress (mergeAddress old body) with
          | error e => left; simp only [hg, hc]
          | ok a =>
            right
            refine ⟨u.addresses.set i a, ?_, by simp only [hg, hc, withAddresses]⟩
            have hset := defaultCount_set a u.addresses i old hg
            have hflag := castAddress_isDefault (mergeAddress old body) a hc
            have hle : (if a.isDefault = true then 1 else 0)
                ≤ (if old.isDefault = true then 1 else 0) := by
              rw [hflag]
              cases hb : body.isDefault with
              | none => simp [mergeAddress, hb]
              | some v =>
                cases v with
                | false => simp [mergeAddress, hb]
                | true => exact absurd hb hd
            omega

/-- The delete handler leaves the users as they were or stores an address
list with at most one default. -/
theorem deleteAddress_cases (coerce : String → JsNumber) (users : List User) (user : Identity)
    (index : String) (u : User)
    (hfind : users.find? (fun x => decide (x._id = user.userId)) = some u)
    (hinv : defaultCount u.addresses ≤ 1) :
    (deleteAddress coerce users user index).2 = users ∨
    ∃ addresses, defaultCount addresses ≤ 1 ∧
      (deleteAddress coerce users user index).2 = withAddresses users u addresses := by
  simp only [deleteAddress, hfind]
  split
  · left; rfl
  · right
    exact ⟨_, le_trans (defaultCount_eraseIdx_le u.addresses _) hinv, rfl⟩

/-- C11. For a stored user whose address list has at most one address
flagged as default, after any add, update or delete request of that user the
user is still stored and the stored address list has at most one address
flagged as default. -/
theorem address_default_invariant (coerce : String → JsNumber) (users : List User)
    (user : Identity) (u : User) (body : AddressBody) (index : String)
    (hfind : users.find? (fun x => x._id = user.userId) = some u)
    (hinv : defaultCount u.addresses ≤ 1) :
    (∃ u1, (postAddress users user body).2.find? (fun x => x._id = user.userId) = some u1 ∧
      defaultCount u1.addresses ≤ 1) ∧
    (∃ u2, (putAddress coerce users user index body).2.find? (fun x => x._id = user.userId)
        = some u2 ∧ defaultCount u2.addresses ≤ 1) ∧
    (∃ u3, (deleteAddress coerce users user index).2.find? (fun x => x._id = user.userId)
        = some u3 ∧ defaultCount u3.addresses ≤ 1) := by
  have hfind2 : users.find? (fun x => decide (x._id = user.userId)) = some u := hfind
  refine ⟨?_, ?_, ?_⟩
  · rcases postAddress_cases users user body u hfind2 hinv with h | ⟨addresses, hc, h⟩
    · exact ⟨u, by rw [h]; exact hfind2, hinv⟩
    · exact ⟨_, by rw [h]; exact find?_withAddresses users user.userId u addresses hfind2, hc⟩
  · rcases putAddress_cases coerce users user index body u hfind2 hinv with
      h | ⟨addresses, hc, h⟩
    · exact ⟨u, by rw [h]; exact hfind2, hinv⟩
    · exact ⟨_, by rw [h]; exact find?_withAddresses users user.userId u addresses hfind2, hc⟩
  · rcases deleteAddress_cases coerce users user index u hfind2 hinv with
      h | ⟨addresses, hc, h⟩
    · exact ⟨u, by rw [h]; exact hfind2, hinv⟩
    · exact ⟨_, by rw [h]; exact find?_withAddresses users user.userId u addresses hfind2, hc⟩

/-- C11 on the sample user, whose first address is the default: adding a new
default address, making the second address the default, and deleting the
first address each leave at most one default. -/
theorem address_default_invariant_witness :
    (∃ u1, (postAddress sampleUsers sampleUser
        ⟨some "Parents", some "A. Buyer", some "5550102", some "560003", some "KA",
          some "Mysuru", some "3 Lake View", none, some true⟩).2.find?
          (fun x => x._id = sampleUser.userId) = some u1 ∧
      defaultCount u1.addresses ≤ 1) ∧
    (∃ u2, (putAddress digitsToNumber sampleUsers sampleUser "1"
        ⟨some "Parents", some "A. Buyer", some "5550102", some "560003", some "KA",
          some "Mysuru", some "3 Lake View", none, some true⟩).2.find?
          (fun x => x._id = sampleUser.userId) = some u2 ∧
      defaultCount u2.addresses ≤ 1) ∧
    (∃ u3, (deleteAddress digitsToNumber sampleUsers sampleUser "1").2.find?
        (fun x => x._id = sampleUser.userId) = some u3 ∧
      defaultCount u3.addresses ≤ 1) :=
  address_default_invariant digitsToNumber sampleUsers sampleUser sampleUserDoc
    ⟨some "Parents", some "A. Buyer", some "5550102", some "560003", some "KA",
      some "Mysuru", some "3 Lake View", none, some true⟩ "1" (by decide) (by decide)

/-- For a path parameter that coerces to an integer within the bounds of the
address list, the delete handler removes exactly the address at that position
and keeps the others in order. -/
theorem deleteAddress_at (coerce : String → JsNumber) (users : List User) (user : Identity)
    (index : String) (u : User) (i : Nat)
    (hfind : users.find? (fun x => x._id = user.userId) = some u)
    (hc : coerce index = .int (i : Int)) (hi : i < u.addresses.length) :
    deleteAddress coerce users user index
      = (⟨200, "Address deleted successfully"⟩,
          withAddresses users u (u.addresses.eraseIdx i)) := by
  have hfind2 : users.find? (fun x => decide (x._id = user.userId)) = some u := hfind
  have hlt : ¬ ((i : Int) < 0) := by omega
  have hge : ¬ ((u.addresses.length : Int) ≤ (i : Int)) := by omega
  have hstart : spliceStart u.addresses.length (.int (i : Int)) = i := by
    simp only [spliceStart, if_neg hlt, Int.toNat_ofNat]
    omega
  simp [deleteAddress, hfind2, hc, JsNumber.ltZero, JsNumber.geLength, hlt, hge, hstart,
    withAddresses]

/-- For a path parameter that coerces to an integer outside the bounds of the
address list, both index handlers answer 400 and leave the users as they
were. -/
theorem address_index_out_of_range (coerce : String → JsNumber) (users : List User)
    (user : Identity) (index : String) (body : AddressBody) (u : User) (z : Int)
    (hfind : users.find? (fun x => x._id = user.userId) = some u)
    (hc : coerce index = .int z) (hz : z < 0 ∨ (u.addresses.length : Int) ≤ z) :
    deleteAddress coerce users user index = (⟨400, "Invalid address index"⟩, users) ∧
    putAddress coerce users user index body = (⟨400, "Invalid address index"⟩, users) := by
  have hfind2 : users.find? (fun x => decide (x._id = user.userId)) = some u := hfind
  have hbad : ((JsNumber.int z).ltZero || (JsNumber.int z).geLength u.addresses.length)
      = true := by
    simp only [JsNumber.ltZero, JsNumber.geLength, Bool.or_eq_true, decide_eq_true_eq]
    exact hz
  constructor
  · simp only [deleteAddress, hfind2, hc, hbad, if_true]
  · simp only [putAddress, hfind2, hc, hbad, if_true]

/-- For a path parameter that coerces to no number, both comparisons of the
bounds check are false: the delete handler removes the first address and
answers 200. -/
theorem deleteAddress_nan (coerce : String → JsNumber) (users : List User) (user : Identity)
    (index : String) (u : User)
    (hfind : users.find? (fun x => x._id = user.userId) = some u)
    (hc : coerce index = .nan) :
    deleteAddress coerce users user index
      = (⟨200, "Address deleted successfully"⟩,
          withAddresses users u (u.addresses.eraseIdx 0)) := by
  have hfind2 : users.find? (fun x => decide (x._id = user.userId)) = some u := hfind
  simp [deleteAddress, hfind2, hc, JsNumber.ltZero, JsNumber.geLength, spliceStart,
    withAddresses]

/-- C12, the failing request. The path parameter `abc` denotes no integer;
for the sample user, who has two addresses, the delete handler answers 200 and
removes the address at position 0 instead of answering 400, and the update
handler answers 500 instead of 400. -/
theorem deleteAddress_not_a_number :
    digitsToNumber "abc" = .nan ∧
    deleteAddress digitsToNumber sampleUsers sampleUser "abc"
      = (⟨200, "Address deleted successfully"⟩,
          [{ sampleUserDoc with addresses := [officeAddress] }]) ∧
    putAddress digitsToNumber sampleUsers sampleUser "abc"
        ⟨none, none, none, none, none, none, none, none, none⟩
      = (⟨500, "Cannot read properties of undefined (reading _doc)"⟩, sampleUsers) := by
  decide

/-! ## Registration -/

/-- A registration whose email is held by a stored user is refused. -/
theorem postRegister_of_mem (hash : String → String) (users : List User) (body : RegisterBody)
    (newId : ObjectId) (u : User) (hu : u ∈ users) (hemail : body.email = some u.email) :
    postRegister hash users body newId = (⟨400, "User already exists"⟩, users) := by
  unfold postRegister
  cases hf : users.find? (fun x => decide (some x.email = body.email)) with
  | some _ => rfl
  | none =>
    exfalso
    have := List.find?_eq_none.mp hf u hu
    simp [hemail] at this

/-- A registration leaves the users as they were, or answers 201 and appends
one user whose email is the email of the body and is held by no stored
user. -/
theorem postRegister_cases (hash : String → String) (users : List User) (body : RegisterBody)
    (newId : ObjectId) :
    ((postRegister hash users body newId).2 = users ∧
      (postRegister hash users body newId).1.status ≠ 201) ∨
    ∃ nu, body.email = some nu.email ∧ nu.email ∉ users.map (fun x => x.email) ∧
      postRegister hash users body newId
        = (⟨201, "User registered successfully"⟩, users ++ [nu]) := by
  unfold postRegister
  cases hf : users.find? (fun x => decide (some x.email = body.email)) with
  | some _ => left; simp
  | none =>
    cases hp : body.password with
    | none => left; simp
    | some password =>
      simp only [saveNewUser]
      cases hn : requiredStr body.name with
      | none => left; simp
      | some name =>
        cases he : requiredStr body.email with
        | none => left; simp
        | some email =>
          cases hw : requiredStr (some (hash password)) with
          | none => left; simp
          | some pw =>
            have hbe : body.email = some email := by
              cases hb : body.email with
              | none => rw [hb] at he; simp [requiredStr] at he
              | some e =>
                rw [hb] at he
                simp only [requiredStr] at he
                split at he
                · cases he
                · cases he; rfl
            by_cases hany : users.any (fun x => decide (x.email = email)) = true
            · left
              simp [hany]
            · right
              refine ⟨newUserDoc newId name email pw, hbe, ?_, ?_⟩
              · intro hmem
                apply hany
                obtain ⟨x, hx, hxe⟩ := List.mem_map.mp hmem
                exact List.any_eq_true.mpr ⟨x, hx, by simpa [newUserDoc] using hxe⟩
              · simp [hany]

/-- One registration keeps the stored emails pairwise distinct. -/
theorem postRegister_nodup (hash : String → String) (users : List User) (body : RegisterBody)
    (newId : ObjectId) (h : (users.map (fun x => x.email)).Nodup) :
    ((postRegister hash users body newId).2.map (fun x => x.email)).Nodup := by
  rcases postRegister_cases hash users body newId with ⟨hsame, _⟩ | ⟨nu, _, hnew, hres⟩
  · rw [hsame]; exact h
  · rw [hres]
    simp only [List.map_append, List.map_cons, List.map_nil]
    apply List.Nodup.append h (List.nodup_singleton _)
    intro a ha hb
    rw [List.mem_singleton] at hb
    exact hnew (hb ▸ ha)

/-- C17. A registration whose email is held by a stored user answers 400
"User already exists" and adds no user.  Hence, of two successive
registrations with the same email, the second is refused whenever the first
succeeded, and from a store with pairwise distinct emails any sequence of
registrations leaves the emails pairwise distinct. -/
theorem postRegister_existing (hash : String → String) (users : List User)
    (body : RegisterBody) (newId : ObjectId) (u : User) (hu : u ∈ users)
    (hemail : body.email = some u.email) :
    postRegister hash users body newId = (⟨400, "User already exists"⟩, users) ∧
    (∀ (users0 : List User) (body1 body2 : RegisterBody) (id1 id2 : ObjectId),
      body2.email = body1.email →
      (postRegister hash users0 body1 id1).1.status = 201 →
      postRegister hash (postRegister hash users0 body1 id1).2 body2 id2
        = (⟨400, "User already exists"⟩, (postRegister hash users0 body1 id1).2)) ∧
    (∀ (users0 : List User) (reqs : List Registration),
      (users0.map (fun x => x.email)).Nodup →
      ((runRegistrations hash users0 reqs).map (fun x => x.email)).Nodup) := by
  refine ⟨postRegister_of_mem hash users body newId u hu hemail, ?_, ?_⟩
  · intro users0 body1 body2 id1 id2 hsame hok
    rcases postRegister_cases hash users0 body1 id1 with ⟨_, hne⟩ | ⟨nu, hbe, _, hres⟩
    · exact absurd hok hne
    · rw [hres]
      exact postRegister_of_mem hash (users0 ++ [nu]) body2 id2 nu (by simp)
        (by rw [hsame, hbe])
  · intro users0 reqs
    unfold runRegistrations
    induction reqs generalizing users0 with
    | nil => intro h; simpa using h
    | cons r rest ih =>
      intro h
      simp only [List.foldl_cons]
      exact ih _ (postRegister_nodup hash users0 r.body r.newId h)

/-- C17 on the sample users: a second registration with the email of `u1` is
refused and the collection is unchanged. -/
theorem postRegister_existing_witness :
    postRegister sampleHash sampleUsers
        ⟨some "B. Buyer", some "buyer@example.com", some "pw"⟩ "u9"
      = (⟨400, "User already exists"⟩, sampleUsers) :=
  (postRegister_existing sampleHash sampleUsers
    ⟨some "B. Buyer", some "buyer@example.com", some "pw"⟩ "u9" sampleUserDoc
    (by decide) (by decide)).1

/-! ## Failures of the data store -/

/-- C18, the failing request. When the query of `GET /user/all-users` fails,
the error leaves the handler and no response is sent, whereas the sibling
handler `GET /user/me`, wrapped in `try`/`catch`, answers 500. -/
theorem getAllUsers_escapes :
    getAllUsers (.error "connection lost") = .escaped "connection lost" ∧
    (∀ res, getAllUsers (.error "connection lost") ≠ .responded res) ∧
    getMe (.error "connection lost") = .responded ⟨500, "Server error"⟩ := by
  refine ⟨rfl, ?_, rfl⟩
  intro res h
  cases h

/-! ## Double arithmetic on safe integers -/

/-- An integer of magnitude below `2 ^ 53` is held exactly. -/
theorem roundDouble_safe (z : Int) (h : z.natAbs < 2 ^ 53) : roundDouble z = z := by
  unfold roundDouble roundNat
  rw [if_pos h]
  split
  · omega
  · omega

/-- Accumulating line by line from `acc` is exact when every line product and
every running total is a safe integer. -/
theorem foldl_js_exact :
    ∀ (lines : List (Int × Int)) (acc : Int),
      (∀ x ∈ lines, (x.1 * x.2).natAbs < 2 ^ 53) →
      (∀ k ≤ lines.length, (acc + exactSum (lines.take k)).natAbs < 2 ^ 53) →
      lines.foldl (fun sum x => jsAdd sum (jsMul x.1 x.2)) acc = acc + exactSum lines := by
  intro lines
  induction lines with
  | nil => intro acc _ _; simp [exactSum]
  | cons x rest ih =>
    intro acc hline hrun
    have hx := hline x (List.mem_cons_self _ _)
    have h1 := hrun 1 (by simp)
    have hmul : jsMul x.1 x.2 = x.1 * x.2 := roundDouble_safe _ hx
    have hadd : jsAdd acc (x.1 * x.2) = acc + x.1 * x.2 := by
      apply roundDouble_safe
      simpa [exactSum] using h1
    simp only [List.foldl_cons, hmul, hadd]
    rw [ih (acc + x.1 * x.2) (fun y hy => hline y (List.mem_cons_of_mem _ hy))]
    · simp [exactSum, add_assoc]
    · intro k hk
      have := hrun (k + 1) (by simpa using hk)
      simpa [exactSum, add_assoc] using this

/-- On a list of lines whose products and running totals are safe integers,
the accumulated sum is the exact sum. -/
theorem roundedSum_exact (lines : List (Int × Int)) (h : safeLines lines = true) :
    roundedSum lines = exactSum lines := by
  simp only [safeLines, Bool.and_eq_true, List.all_eq_true, decide_eq_true_eq,
    List.mem_range] at h
  have := foldl_js_exact lines 0 (fun x hx => h.1 x hx)
    (fun k hk => by simpa using h.2 k (by omega))
  simpa [roundedSum] using this

/-! ## Order placement: the total -/

/-- The exact total of a cart is the exact sum of its (price, quantity)
pairs. -/
theorem cartTotal_eq_exactSum (products : List Product) (items : List CartItem) :
    cartTotal products items = exactSum (cartLines products items) := by
  simp only [cartTotal, exactSum, cartLines, List.map_map]
  rfl

/-- The reduce of the handler, started from any accumulator, accumulates the
resolved price times quantity of each line when every line resolves. -/
theorem foldlM_totalStep (products : List Product) :
    ∀ (items : List CartItem) (acc : Int),
      (∀ it ∈ items, (products.find? (fun p => p._id = it.productId)).isSome = true) →
      (items.map (populateItem products)).foldlM totalStep acc
        = .ok ((cartLines products items).foldl
            (fun sum x => jsAdd sum (jsMul x.1 x.2)) acc) := by
  intro items
  induction items with
  | nil => intro acc _; simp [cartLines]; rfl
  | cons it rest ih =>
    intro acc h
    obtain ⟨p, hp⟩ := Option.isSome_iff_exists.mp (h it (List.mem_cons_self _ _))
    have hrest := ih (jsAdd acc (jsMul p.price it.quantity))
      (fun x hx => h x (List.mem_cons_of_mem _ hx))
    simp only [List.map_cons, List.foldlM_cons]
    have hstep : totalStep acc (populateItem products it)
        = .ok (jsAdd acc (jsMul p.price it.quantity)) := by
      simp [totalStep, populateItem, hp]
    rw [hstep]
    simp only [bind, Except.bind]
    rw [hrest]
    simp [cartLines, resolvedPrice, hp]

/-- Whenever the reduce of the handler returns at all, it returns the
accumulation of the resolved price times quantity of each line. -/
theorem foldlM_totalStep_inv (products : List Product) :
    ∀ (items : List CartItem) (acc total : Int),
      (items.map (populateItem products)).foldlM totalStep acc = .ok total →
      total = (cartLines products items).foldl
        (fun sum x => jsAdd sum (jsMul x.1 x.2)) acc := by
  intro items
  induction items with
  | nil =>
    intro acc total h
    simp only [List.map_nil, List.foldlM_nil] at h
    cases h
    simp [cartLines]
  | cons it rest ih =>
    intro acc total h
    simp only [List.map_cons, List.foldlM_cons] at h
    cases hp : products.find? (fun p => p._id = it.productId) with
    | none =>
      have hstep : totalStep acc (populateItem products it)
          = .error "Cannot read properties of null (reading price)" := by
        simp [totalStep, populateItem, hp]
      rw [hstep] at h
      simp [bind, Except.bind] at h
    | some p =>
      have hstep : totalStep acc (populateItem products it)
          = .ok (jsAdd acc (jsMul p.price it.quantity)) := by
        simp [totalStep, populateItem, hp]
      rw [hstep] at h
      simp only [bind, Except.bind] at h
      rw [ih _ _ h]
      simp [cartLines, resolvedPrice, hp]

/-- C1, the claim as stated fails. The sample cart holds one unit of a product
priced `2 ^ 53` and one unit of a product priced 1; every line resolves and
the exact sum is `2 ^ 53 + 1`, but the order placed carries
`totalAmount = 2 ^ 53`, the double that the addition rounds to. -/
theorem postOrder_totalAmount_rounds :
    cartOf bigDb sampleUser.userId = some bigCart ∧ bigCart.items ≠ [] ∧
    (∀ it ∈ bigCart.items,
      (bigDb.products.find? (fun p => p._id = it.productId)).isSome = true) ∧
    cartTotal bigDb.products bigCart.items = 9007199254740993 ∧
    (postOrder bigDb sampleUser sampleOrderBody "o1").1.status = 201 ∧
    (postOrder bigDb sampleUser sampleOrderBody "o1").2.orders.map (fun o => o.totalAmount)
      = [9007199254740992] := by
  decide

/-- Inside the model, for a user whose cart is non-empty and whose lines all
resolve: a request with a shipping address and a payment method of the schema
answers 201 and inserts an order whose total is the sum accumulated line by
line by `jsAdd` and `jsMul`, and any order the handler inserts carries that
total. -/
theorem postOrder_total_accumulated (db : Db) (user : Identity) (newId : ObjectId)
    (cart : Cart) (hcart : cartOf db user.userId = some cart) (hne : cart.items ≠ [])
    (hres : ∀ it ∈ cart.items,
      (db.products.find? (fun p => p._id = it.productId)).isSome = true) :
    (∀ addr method, method ∈ paymentMethodEnum →
      (postOrder db user ⟨some addr, some method⟩ newId).1.status = 201 ∧
      ∃ o, (postOrder db user ⟨some addr, some method⟩ newId).2.orders = db.orders ++ [o] ∧
        o.totalAmount = roundedSum (cartLines db.products cart.items)) ∧
    (∀ body o, (postOrder db user body newId).2.orders = db.orders ++ [o] →
      o.totalAmount = roundedSum (cartLines db.products cart.items)) := by
  refine ⟨?_, ?_⟩
  · intro addr method hm
    have ht := foldlM_totalStep db.products cart.items 0 hres
    obtain ⟨snaps, hs, _⟩ := orderItems_ok db.products cart.items hres
    have hlen : ¬ cart.items.length = 0 := by
      intro h; exact hne (List.length_eq_zero.mp h)
    have hmne : method ≠ "" := by
      intro h; subst h; simp [paymentMethodEnum] at hm
    have hv : orderSchemaValid (newOrderDoc user addr method
        (roundedSum (cartLines db.products cart.items)) snaps newId) = true := by
      simp only [paymentMethodEnum, List.mem_cons, List.mem_singleton] at hm
      rcases hm with h | h | h
      · subst h; simp [orderSchemaValid, newOrderDoc, paymentMethodEnum, paymentStatusEnum,
          orderStatusEnum]
      · subst h; simp [orderSchemaValid, newOrderDoc, paymentMethodEnum, paymentStatusEnum,
          orderStatusEnum]
      · simp at h
    have hpost : postOrder db user ⟨some addr, some method⟩ newId
        = (⟨201, "Order placed successfully"⟩,
            placedDb db cart (newOrderDoc user addr method
              (roundedSum (cartLines db.products cart.items)) snaps newId)) := by
      simp only [roundedSum] at hv ⊢
      simp [postOrder, hmne, hcart, hlen, placeOrderTry, totalAmount, ht, hs, saveNewOrder, hv,
        bind, Except.bind, pure, Except.pure, placedDb]
    rw [hpost]
    exact ⟨rfl, _, rfl, by simp [newOrderDoc]⟩
  · intro body o ho
    rcases postOrder_cases db user body newId with ⟨hdb, _⟩ | ⟨addr, method, cart2, total, snaps,
        _, _, hc2, _, ht, _, _, hpost⟩
    · rw [hdb] at ho
      have := congrArg List.length ho
      simp at this
    · rw [hcart] at hc2
      cases hc2
      rw [hpost] at ho
      have ho2 : [newOrderDoc user addr method total snaps newId] = [o] :=
        List.append_cancel_left ho
      cases ho2
      have := foldlM_totalStep_inv db.products cart.items 0 total ht
      simp [newOrderDoc, this, roundedSum]

/-- C1, amended. For a user whose cart is non-empty, whose lines all resolve
to products, and whose line products (price times quantity) and running totals
are all safe integers, `POST /order` with a shipping address and a payment
method of the schema answers 201 and inserts an order whose `totalAmount` is
the sum over the cart lines of resolved price times quantity; and whatever the
request body, an order inserted by the handler carries that total. -/
theorem postOrder_totalAmount (db : Db) (user : Identity) (newId : ObjectId) (cart : Cart)
    (hcart : cartOf db user.userId = some cart) (hne : cart.items ≠ [])
    (hres : ∀ it ∈ cart.items,
      (db.products.find? (fun p => p._id = it.productId)).isSome = true)
    (hsafe : safeLines (cartLines db.products cart.items) = true) :
    (∀ addr method, method ∈ paymentMethodEnum →
      (postOrder db user ⟨some addr, some method⟩ newId).1.status = 201 ∧
      ∃ o, (postOrder db user ⟨some addr, some method⟩ newId).2.orders = db.orders ++ [o] ∧
        o.totalAmount = cartTotal db.products cart.items) ∧
    (∀ body o, (postOrder db user body newId).2.orders = db.orders ++ [o] →
      o.totalAmount = cartTotal db.products cart.items) := by
  have hexact : roundedSum (cartLines db.products cart.items)
      = cartTotal db.products cart.items := by
    rw [roundedSum_exact _ hsafe, cartTotal_eq_exactSum]
  obtain ⟨h1, h2⟩ := postOrder_total_accumulated db user newId cart hcart hne hres
  refine ⟨?_, ?_⟩
  · intro addr method hm
    obtain ⟨hst, o, ho, htot⟩ := h1 addr method hm
    exact ⟨hst, o, ho, by rw [htot, hexact]⟩
  · intro body o ho
    rw [h2 body o ho, hexact]

/-- C1, amended, on the cart of the specification: lines of price 10 with
quantity 2 and price 5 with quantity 1 are safe, and the order placed has
`totalAmount = 25`. -/
theorem postOrder_totalAmount_witness :
    cartTotal sampleDb.products sampleCart.items = 25 ∧
    ((postOrder sampleDb sampleUser ⟨some sampleAddress, some "ONLINE"⟩ "o1").1.status = 201 ∧
      ∃ o, (postOrder sampleDb sampleUser ⟨some sampleAddress, some "ONLINE"⟩ "o1").2.orders
          = sampleDb.orders ++ [o] ∧
        o.totalAmount = cartTotal sampleDb.products sampleCart.items) :=
  ⟨by decide,
    (postOrder_totalAmount sampleDb sampleUser "o1" sampleCart (by decide) (by decide)
      (by decide) (by decide)).1 sampleAddress "ONLINE" (by decide)⟩

/-! ## Order placement: payment status -/

/-- C4. Every order that `POST /order` inserts carries the payment method of
the request, which is one of the schema enum, and its `paymentStatus` is
"Paid" when the method is "ONLINE" and "Pending" otherwise: a request paying
"ONLINE" is stored as "ONLINE" and "Paid", a request paying "COD" as "COD"
and "Pending". -/
theorem postOrder_paymentStatus (db : Db) (user : Identity) (body : OrderBody)
    (newId : ObjectId) (o : Order)
    (h : (postOrder db user body newId).2.orders = db.orders ++ [o]) :
    body.paymentMethod = some o.paymentMethod ∧
    o.paymentMethod ∈ paymentMethodEnum ∧
    (o.paymentMethod = "ONLINE" → o.paymentStatus = "Paid") ∧
    (o.paymentMethod ≠ "ONLINE" → o.paymentStatus = "Pending") ∧
    (body.paymentMethod = some "ONLINE" →
      o.paymentMethod = "ONLINE" ∧ o.paymentStatus = "Paid") ∧
    (body.paymentMethod = some "COD" →
      o.paymentMethod = "COD" ∧ o.paymentStatus = "Pending") := by
  rcases postOrder_cases db user body newId with ⟨hdb, _⟩ | ⟨addr, method, cart, total, snaps,
      hbody, _, _, _, _, _, hv, hpost⟩
  · rw [hdb] at h
    have := congrArg List.length h
    simp at this
  · rw [hpost] at h
    have ho : [newOrderDoc user addr method total snaps newId] = [o] :=
      List.append_cancel_left h
    cases ho
    subst hbody
    have hmem : method ∈ paymentMethodEnum := by
      simp only [orderSchemaValid, newOrderDoc, Bool.and_eq_true] at hv
      simpa using hv.1.1
    have hon : method = "ONLINE" → (newOrderDoc user addr method total snaps newId).paymentStatus
        = "Paid" := by
      intro hm
      subst hm
      simp [newOrderDoc]
    have hoff : method ≠ "ONLINE" → (newOrderDoc user addr method total snaps newId).paymentStatus
        = "Pending" := by
      intro hm
      simp only [paymentMethodEnum, List.mem_cons, List.mem_singleton] at hmem
      rcases hmem with h1 | h1 | h1
      · subst h1; simp [newOrderDoc]
      · exact absurd h1 hm
      · simp at h1
    refine ⟨rfl, hmem, hon, hoff, ?_, ?_⟩
    · intro hb
      have hm : method = "ONLINE" := by simpa using hb
      exact ⟨hm, hon hm⟩
    · intro hb
      have hm : method = "COD" := by simpa using hb
      refine ⟨hm, hoff ?_⟩
      rw [hm]
      decide

/-- C4 on the sample database: a request paying "COD" inserts an order stored
as "COD" and "Pending", a request paying "ONLINE" one stored as "ONLINE" and
"Paid". -/
theorem postOrder_paymentStatus_witness :
    ((postOrder sampleDb sampleUser ⟨some sampleAddress, some "COD"⟩ "o1").2.orders
        = sampleDb.orders ++ [newOrderDoc sampleUser sampleAddress "COD" 25
            [⟨"p1", "Oud Noir", "oud.png", 10, 2⟩, ⟨"p2", "Citrus Bloom", "citrus.png", 5, 1⟩]
            "o1"] ∧
      (newOrderDoc sampleUser sampleAddress "COD" 25
            [⟨"p1", "Oud Noir", "oud.png", 10, 2⟩, ⟨"p2", "Citrus Bloom", "citrus.png", 5, 1⟩]
            "o1").paymentMethod = "COD" ∧
      (newOrderDoc sampleUser sampleAddress "COD" 25
            [⟨"p1", "Oud Noir", "oud.png", 10, 2⟩, ⟨"p2", "Citrus Bloom", "citrus.png", 5, 1⟩]
            "o1").paymentStatus = "Pending") ∧
    ((postOrder sampleDb sampleUser ⟨some sampleAddress, some "ONLINE"⟩ "o1").2.orders
        = sampleDb.orders ++ [newOrderDoc sampleUser sampleAddress "ONLINE" 25
            [⟨"p1", "Oud Noir", "oud.png", 10, 2⟩, ⟨"p2", "Citrus Bloom", "citrus.png", 5, 1⟩]
            "o1"] ∧
      (newOrderDoc sampleUser sampleAddress "ONLINE" 25
            [⟨"p1", "Oud Noir", "oud.png", 10, 2⟩, ⟨"p2", "Citrus Bloom", "citrus.png", 5, 1⟩]
            "o1").paymentMethod = "ONLINE" ∧
      (newOrderDoc sampleUser sampleAddress "ONLINE" 25
            [⟨"p1", "Oud Noir", "oud.png", 10, 2⟩, ⟨"p2", "Citrus Bloom", "citrus.png", 5, 1⟩]
            "o1").paymentStatus = "Paid") :=
  ⟨⟨by decide,
      (postOrder_paymentStatus sampleDb sampleUser ⟨some sampleAddress, some "COD"⟩ "o1" _
        (by decide)).2.2.2.2.2 rfl⟩,
    ⟨by decide,
      (postOrder_paymentStatus sampleDb sampleUser ⟨some sampleAddress, some "ONLINE"⟩ "o1" _
        (by decide)).2.2.2.2.1 rfl⟩⟩

/-! ## Order placement: the item snapshots and their total -/

/-- The (price, quantity) pairs of the snapshots are the (resolved price,
quantity) pairs of the cart lines. -/
theorem snapshot_lines (products : List Product) :
    ∀ (items : List CartItem) (snaps : List OrderItem),
      List.Forall₂ (fun (line : CartItem) (snap : OrderItem) =>
        ∃ p, products.find? (fun x => x._id = line.productId) = some p ∧
          snap = { product := p._id, name := p.name, image := p.image, price := p.price,
                   quantity := line.quantity }) items snaps →
      snaps.map (fun s => (s.price, s.quantity)) = cartLines products items := by
  intro items snaps h
  induction h with
  | nil => simp [cartLines]
  | cons hhead _ ih =>
    obtain ⟨p, hp, hs⟩ := hhead
    have hp2 := hp
    simp only [cartLines] at ih ⊢
    simp only [List.map_cons, ih, hs, resolvedPrice]
    rw [hp2]

/-- C19, the claim as stated fails. On the sample cart with prices `2 ^ 53`
and 1, the order placed has the two snapshots, whose prices times quantities
sum to `2 ^ 53 + 1`, and `totalAmount = 2 ^ 53`. -/
theorem postOrder_snapshots_rounds :
    (postOrder bigDb sampleUser sampleOrderBody "o1").1.status = 201 ∧
    (postOrder bigDb sampleUser sampleOrderBody "o1").2.orders.map
        (fun o => (o.items.map (fun s => (s.price, s.quantity)),
          (o.items.map (fun s => s.price * s.quantity)).sum, o.totalAmount))
      = [([(9007199254740992, 1), (1, 1)], 9007199254740993, 9007199254740992)] := by
  decide

/-- C19, amended. Whenever `POST /order` answers 201, the inserted order has
exactly one snapshot per line of the cart, in the order of the cart, each
carrying the id, name, image and price of the product the line resolves to and
the quantity of the line; and whenever the products of price times quantity of
its snapshots and their running totals are all safe integers, its
`totalAmount` is the sum over its own snapshots of price times quantity. -/
theorem postOrder_snapshots (db : Db) (user : Identity) (body : OrderBody) (newId : ObjectId)
    (h : (postOrder db user body newId).1.status = 201) :
    ∃ cart o, cartOf db user.userId = some cart ∧
      (postOrder db user body newId).2.orders = db.orders ++ [o] ∧
      o.items.length = cart.items.length ∧
      List.Forall₂ (fun (line : CartItem) (snap : OrderItem) =>
        ∃ p, db.products.find? (fun x => x._id = line.productId) = some p ∧
          snap = { product := p._id, name := p.name, image := p.image, price := p.price,
                   quantity := line.quantity }) cart.items o.items ∧
      (safeLines (orderLines o) = true →
        o.totalAmount = (o.items.map (fun s => s.price * s.quantity)).sum) := by
  rcases postOrder_cases db user body newId with ⟨_, hst⟩ | ⟨addr, method, cart, total, snaps,
      _, _, hc, _, ht, hs, _, hpost⟩
  · exact absurd h hst
  · have hrel := orderItems_forall₂ db.products cart.items snaps hs
    have htot := foldlM_totalStep_inv db.products cart.items 0 total ht
    have hlines : orderLines (newOrderDoc user addr method total snaps newId)
        = cartLines db.products cart.items :=
      snapshot_lines db.products cart.items snaps hrel
    have hround : total
        = roundedSum (orderLines (newOrderDoc user addr method total snaps newId)) := by
      rw [hlines, htot]; rfl
    refine ⟨cart, newOrderDoc user addr method total snaps newId, hc, ?_, ?_, hrel, ?_⟩
    · rw [hpost]; rfl
    · exact hrel.length_eq.symm
    · intro hsafe
      have hex := roundedSum_exact _ hsafe
      show total = (snaps.map (fun s => s.price * s.quantity)).sum
      rw [hround, hex]
      simp only [exactSum, orderLines, newOrderDoc, List.map_map]
      rfl

/-- C19, amended, on the sample cart: the order placed holds the two
snapshots, in cart order, they are safe, and its total, 25, is their sum. -/
theorem postOrder_snapshots_witness :
    ((postOrder sampleDb sampleUser sampleOrderBody "o1").1.status = 201 ∧
      ∃ cart o, cartOf sampleDb sampleUser.userId = some cart ∧
        (postOrder sampleDb sampleUser sampleOrderBody "o1").2.orders
          = sampleDb.orders ++ [o] ∧
        o.items.length = cart.items.length ∧
        List.Forall₂ (fun (line : CartItem) (snap : OrderItem) =>
          ∃ p, sampleDb.products.find? (fun x => x._id = line.productId) = some p ∧
            snap = { product := p._id, name := p.name, image := p.image, price := p.price,
                     quantity := line.quantity }) cart.items o.items ∧
        (safeLines (orderLines o) = true →
          o.totalAmount = (o.items.map (fun s => s.price * s.quantity)).sum)) ∧
    (postOrder sampleDb sampleUser sampleOrderBody "o1").2.orders.map
        (fun o => (safeLines (orderLines o), o.totalAmount,
          (o.items.map (fun s => s.price * s.quantity)).sum))
      = [(true, 25, 25)] :=
  ⟨⟨by decide, postOrder_snapshots sampleDb sampleUser sampleOrderBody "o1" (by decide)⟩,
    by decide⟩

/-! ## Reviews: the guard and the mutation -/

/-- The two conditional assignments of the update handler, field by field:
the rating and the comment take the value of the body when it has one, and
every other field is kept. -/
theorem applyReviewBody_fields (review : Review) (body : ReviewBody) :
    (applyReviewBody review body).rating = body.rating.getD review.rating ∧
    (applyReviewBody review body).comment = body.comment.getD review.comment ∧
    (applyReviewBody review body)._id = review._id ∧
    (applyReviewBody review body).productId = review.productId ∧
    (applyReviewBody review body).userId = review.userId ∧
    (applyReviewBody review body).name = review.name := by
  unfold applyReviewBody
  cases body.rating <;> cases body.comment <;> exact ⟨rfl, rfl, rfl, rfl, rfl, rfl⟩

/-- C9. For a stored review and an authenticated requester, `DELETE
/review/:reviewId` and `PATCH /review/:reviewId` answer 200 exactly when the
requester is the owner of the review or has role "admin" or "superadmin".
In that case delete removes the review from the store, and update stores, in
place of the review, the review whose rating and comment are those of the body
where the body has them and the old ones otherwise, with id, product, owner
and name kept; otherwise both answer 403 and the database is unchanged. -/
theorem review_mutation_guard (db : Db) (user : Identity) (reviewId : ObjectId)
    (review : Review) (body : ReviewBody)
    (hfind : db.reviews.find? (fun r => r._id = reviewId) = some review) :
    (((deleteReview db user reviewId).1.status = 200 ↔
        (review.userId = user.userId ∨ user.role = "admin" ∨ user.role = "superadmin")) ∧
      ((review.userId = user.userId ∨ user.role = "admin" ∨ user.role = "superadmin") →
        deleteReview db user reviewId
          = (⟨200, "Review deleted successfully"⟩,
              { db with reviews := db.reviews.erase review }) ∧
        (db.reviews.erase review).length + 1 = db.reviews.length) ∧
      (¬ (review.userId = user.userId ∨ user.role = "admin" ∨ user.role = "superadmin") →
        deleteReview db user reviewId
          = (⟨403, "You can only delete your own reviews"⟩, db))) ∧
    (((patchReview db user reviewId body).1.status = 200 ↔
        (review.userId = user.userId ∨ user.role = "admin" ∨ user.role = "superadmin")) ∧
      ((review.userId = user.userId ∨ user.role = "admin" ∨ user.role = "superadmin") →
        ∃ stored : Review,
          stored.rating = body.rating.getD review.rating ∧
          stored.comment = body.comment.getD review.comment ∧
          stored._id = review._id ∧ stored.productId = review.productId ∧
          stored.userId = review.userId ∧ stored.name = review.name ∧
          patchReview db user reviewId body
            = (⟨200, "Review updated"⟩, { db with reviews := saveReview db.reviews stored }) ∧
          (patchReview db user reviewId body).2.reviews.find? (fun r => r._id = reviewId)
            = some stored ∧
          (patchReview db user reviewId body).2.reviews.length = db.reviews.length) ∧
      (¬ (review.userId = user.userId ∨ user.role = "admin" ∨ user.role = "superadmin") →
        patchReview db user reviewId body
          = (⟨403, "You can only update your own reviews"⟩, db))) := by
  have hfind2 : db.reviews.find? (fun r => decide (r._id = reviewId)) = some review := hfind
  have hid : review._id = reviewId := by
    have := List.find?_some hfind2
    simpa using this
  have hmem : review ∈ db.reviews := List.mem_of_find?_eq_some hfind2
  obtain ⟨f1, f2, f3, f4, f5, f6⟩ := applyReviewBody_fields review body
  by_cases hall : review.userId = user.userId ∨ user.role = "admin" ∨ user.role = "superadmin"
  · have hden : reviewDenied review user = false := by
      cases hd : reviewDenied review user with
      | false => rfl
      | true => exact absurd hall ((reviewDenied_iff review user).mp hd)
    have hdel : deleteReview db user reviewId
        = (⟨200, "Review deleted successfully"⟩,
            { db with reviews := db.reviews.erase review }) := by
      simp only [deleteReview, hfind2, hden, Bool.false_eq_true, if_false]
      rw [deleteReviewById_eq_erase reviewId review db.reviews hfind2]
    have hpatch : patchReview db user reviewId body
        = (⟨200, "Review updated"⟩,
            { db with reviews := saveReview db.reviews (applyReviewBody review body) }) := by
      simp only [patchReview, hfind2, hden, Bool.false_eq_true, if_false]
    refine ⟨⟨⟨fun _ => hall, fun _ => by rw [hdel]⟩, fun _ => ⟨hdel, ?_⟩, fun hn => absurd hall hn⟩,
      ⟨⟨fun _ => hall, fun _ => by rw [hpatch]⟩,
        fun _ => ⟨applyReviewBody review body, f1, f2, f3, f4, f5, f6, hpatch, ?_, ?_⟩,
        fun hn => absurd hall hn⟩⟩
    · rw [List.length_erase_of_mem hmem]
      have : 0 < db.reviews.length := List.length_pos_of_mem hmem
      omega
    · rw [hpatch]
      unfold saveReview
      rw [f3]
      exact find?_map_replace (fun r => decide (r._id = reviewId)) (fun x => x._id = review._id)
        review (applyReviewBody review body) (by simp [f3, hid]) db.reviews hfind2 rfl
    · rw [hpatch]
      simp [saveReview]
  · have hden : reviewDenied review user = true := (reviewDenied_iff review user).mpr hall
    have hdel : deleteReview db user reviewId
        = (⟨403, "You can only delete your own reviews"⟩, db) := by
      simp only [deleteReview, hfind2, hden, if_true]
    have hpatch : patchReview db user reviewId body
        = (⟨403, "You can only update your own reviews"⟩, db) := by
      simp only [patchReview, hfind2, hden, if_true]
    refine ⟨⟨⟨fun h => ?_, fun h => absurd h hall⟩, fun h => absurd h hall, fun _ => hdel⟩,
      ⟨⟨fun h => ?_, fun h => absurd h hall⟩, fun h => absurd h hall, fun _ => hpatch⟩⟩
    · rw [hdel] at h
      simp at h
    · rw [hpatch] at h
      simp at h

/-- C9 on the sample review of `u1`, rated 4: the owner updating the rating
to 5 gets 200 and the stored review is rated 5 with the comment kept; the
owner deleting it gets 200 and the store is empty; another plain user gets 403
on both and the store keeps the review. -/
theorem review_mutation_guard_witness :
    (∃ stored : Review,
      stored.rating = 5 ∧ stored.comment = "Lasts all day" ∧ stored._id = "r1" ∧
      patchReview sampleReviewDb sampleUser "r1" ⟨some 5, none⟩
        = (⟨200, "Review updated"⟩,
            { sampleReviewDb with reviews := saveReview sampleReviewDb.reviews stored }) ∧
      (patchReview sampleReviewDb sampleUser "r1" ⟨some 5, none⟩).2.reviews.find?
        (fun r => r._id = "r1") = some stored) ∧
    deleteReview sampleReviewDb sampleUser "r1"
      = (⟨200, "Review deleted successfully"⟩, { sampleReviewDb with reviews := [] }) ∧
    deleteReview sampleReviewDb otherUser "r1"
      = (⟨403, "You can only delete your own reviews"⟩, sampleReviewDb) ∧
    patchReview sampleReviewDb otherUser "r1" ⟨some 5, none⟩
      = (⟨403, "You can only update your own reviews"⟩, sampleReviewDb) :=
  ⟨by
      obtain ⟨stored, h1, h2, h3, _, _, _, h7, h8, _⟩ :=
        (review_mutation_guard sampleReviewDb sampleUser "r1" sampleReview ⟨some 5, none⟩
          (by decide)).2.2.1 (Or.inl (by decide))
      exact ⟨stored, h1, h2, h3, h7, h8⟩,
    ((review_mutation_guard sampleReviewDb sampleUser "r1" sampleReview ⟨none, none⟩
      (by decide)).1.2.1 (Or.inl (by decide))).1,
    (review_mutation_guard sampleReviewDb otherUser "r1" sampleReview ⟨some 5, none⟩
      (by decide)).1.2.2 (by decide),
    (review_mutation_guard sampleReviewDb otherUser "r1" sampleReview ⟨some 5, none⟩
      (by decide)).2.2.2 (by decide)⟩

/-! ## Cart: adding an item -/

/-- Incrementing the first line of a product changes no product reference. -/
theorem bumpFirst_ids (p : String) (q : Int) :
    ∀ items : List CartItem,
      (bumpFirst p q items).map (fun it => it.productId) = items.map (fun it => it.productId) := by
  intro items
  induction items with
  | nil => rfl
  | cons it rest ih =>
    by_cases h : it.productId = p
    · simp [bumpFirst, h]
    · simp [bumpFirst, h, ih]

/-- On a cart with at most one line per product, incrementing the first line
of a product is the pointwise update of the lines of that product. -/
theorem bumpFirst_eq_map (p : String) (q : Int) :
    ∀ items : List CartItem, (items.map (fun it => it.productId)).Nodup →
      bumpFirst p q items
        = items.map (fun it =>
            if it.productId = p then { it with quantity := jsAdd it.quantity q } else it) := by
  intro items
  induction items with
  | nil => intro _; rfl
  | cons it rest ih =>
    intro hnd
    simp only [List.map_cons, List.nodup_cons] at hnd
    by_cases h : it.productId = p
    · have hrest : rest.map (fun it =>
          if it.productId = p then { it with quantity := jsAdd it.quantity q } else it)
          = rest := by
        conv_rhs => rw [← List.map_id rest]
        apply List.map_congr_left
        intro x hx
        have hxp : x.productId ≠ p := by
          intro hxp
          apply hnd.1
          rw [h, ← hxp]
          exact List.mem_map_of_mem (fun it => it.productId) hx
        simp [hxp]
      simp [bumpFirst, h, hrest]
    · simp [bumpFirst, h, ih hnd.2]

/-- When a stored line has the request string as its id, the handler
increments it. -/
theorem addToItems_of_mem (items : List CartItem) (p : String) (id : ObjectId) (q : Int)
    (hmem : p ∈ items.map (fun it => it.productId)) :
    addToItems items p id q = bumpFirst p q items := by
  unfold addToItems
  cases hf : items.find? (fun it => decide (it.productId = p)) with
  | some _ => rfl
  | none =>
    exfalso
    obtain ⟨x, hx, hxp⟩ := List.mem_map.mp hmem
    have := List.find?_eq_none.mp hf x hx
    simp [hxp] at this

/-- For a request string that is its own cast, the item list after an add
holds a line of the product, and still at most one line per product if it did
before. -/
theorem addToItems_nodup (items : List CartItem) (p : String) (q : Int)
    (hnd : (items.map (fun it => it.productId)).Nodup) :
    ((addToItems items p p q).map (fun it => it.productId)).Nodup ∧
    p ∈ (addToItems items p p q).map (fun it => it.productId) := by
  by_cases hmem : p ∈ items.map (fun it => it.productId)
  · rw [addToItems_of_mem items p p q hmem, bumpFirst_ids]
    exact ⟨hnd, hmem⟩
  · have hf : items.find? (fun it => decide (it.productId = p)) = none := by
      apply List.find?_eq_none.mpr
      intro x hx hxp
      apply hmem
      have hxp2 : x.productId = p := by simpa using hxp
      rw [← hxp2]
      exact List.mem_map_of_mem (fun it => it.productId) hx
    simp only [addToItems, hf, List.map_append, List.map_cons, List.map_nil]
    constructor
    · apply List.Nodup.append hnd (List.nodup_singleton _)
      intro a ha hb
      rw [List.mem_singleton] at hb
      exact hmem (hb ▸ ha)
    · simp

/-- One successful add-item request for a product id sent in the form in
which it is stored: the response is 201, the catalogue is untouched, and the
cart found for the user afterwards has at most one line per product, among
them a line of the added product; it is the former cart with the item list
updated when a cart existed. -/
theorem postCart_step (castId : String → Option ObjectId) (db : Db) (user : Identity)
    (p : ObjectId) (q : Int) (newId : ObjectId)
    (hp : p ≠ "") (hq : q ≠ 0) (hcast : castId p = some p)
    (hprod : (db.products.find? (fun x => x._id = p)).isSome = true)
    (hinit : ∀ c, cartOf db user.userId = some c → (c.items.map (fun it => it.productId)).Nodup) :
    (postCart castId db user ⟨some p, some q⟩ newId).1.status = 201 ∧
    (postCart castId db user ⟨some p, some q⟩ newId).2.products = db.products ∧
    ∃ c1, cartOf (postCart castId db user ⟨some p, some q⟩ newId).2 user.userId = some c1 ∧
      (c1.items.map (fun it => it.productId)).Nodup ∧
      p ∈ c1.items.map (fun it => it.productId) ∧
      (∀ c, cartOf db user.userId = some c →
        c1 = { c with items := addToItems c.items p p q }) ∧
      (cartOf db user.userId = none → c1.items = [⟨p, q⟩]) := by
  obtain ⟨prod, hprod2⟩ := Option.isSome_iff_exists.mp hprod
  cases hc : cartOf db user.userId with
  | none =>
    have hres : postCart castId db user ⟨some p, some q⟩ newId
        = (⟨201, "Product added to cart"⟩,
            { db with carts := db.carts ++
                [{ _id := newId, userId := user.userId,
                   items := [{ productId := p, quantity := q }] }] }) := by
      simp [postCart, falsyStr, falsyNum, hp, hq, hcast, hprod2, hc]
    rw [hres]
    refine ⟨rfl, rfl, ⟨newId, user.userId, [⟨p, q⟩]⟩, ?_, ?_, ?_, ?_, ?_⟩
    · have hnone : db.carts.find? (fun c => decide (c.userId = user.userId)) = none := hc
      show (db.carts ++ _).find? (fun c => decide (c.userId = user.userId)) = _
      rw [List.find?_append, hnone]
      simp
    · simp
    · simp
    · intro c hc2
      cases hc2
    · intro _
      rfl
  | some c =>
    have hres : postCart castId db user ⟨some p, some q⟩ newId
        = (⟨201, "Product added to cart"⟩, withCartItems db c (addToItems c.items p p q)) := by
      simp [postCart, falsyStr, falsyNum, hp, hq, hcast, hprod2, hc, withCartItems]
    have hnd := addToItems_nodup c.items p q (hinit c hc)
    rw [hres]
    refine ⟨rfl, rfl, { c with items := addToItems c.items p p q }, ?_, hnd.1, hnd.2, ?_, ?_⟩
    · exact cartOf_saveCart db user.userId c _ hc
    · intro c2 hc2
      cases hc2
      rfl
    · intro hnone
      cases hnone

/-- A list of lines with pairwise distinct product references that mentions a
product holds exactly one line of it. -/
theorem countP_line_eq_one (p : ObjectId) (items : List CartItem)
    (hnd : (items.map (fun it => it.productId)).Nodup)
    (hmem : p ∈ items.map (fun it => it.productId)) :
    items.countP (fun it => decide (it.productId = p)) = 1 := by
  have h := List.count_eq_one_of_mem hnd hmem
  rw [List.count, List.countP_map] at h
  rw [← h]
  apply List.countP_congr
  intro x _
  simp [Function.comp]

/-- C6, the claim as stated fails, in two ways. With no cart at first, adding
`2 ^ 53` units and then 1 unit of the sample product leaves the quantity at
`2 ^ 53`: the addition rounds.  And sending the id of the product with its
hexadecimal letters in upper case, twice, gets 201 twice and leaves two lines
of the product: the product is found through the cast, but the line search
compares the stored id with the request string. -/
theorem postCart_twice_fails :
    (cartOf (postCart hexCast (postCart hexCast hexDb sampleUser
        ⟨some "64b7f0c2a1d3e4f5a6b7c8d9", some 9007199254740992⟩ "c8").2 sampleUser
        ⟨some "64b7f0c2a1d3e4f5a6b7c8d9", some 1⟩ "c9").2 "u1").map (fun c => c.items)
      = some [⟨"64b7f0c2a1d3e4f5a6b7c8d9", 9007199254740992⟩] ∧
    hexCast "64B7F0C2A1D3E4F5A6B7C8D9" = some "64b7f0c2a1d3e4f5a6b7c8d9" ∧
    (postCart hexCast hexDb sampleUser
        ⟨some "64B7F0C2A1D3E4F5A6B7C8D9", some 1⟩ "c8").1.status = 201 ∧
    (postCart hexCast (postCart hexCast hexDb sampleUser
        ⟨some "64B7F0C2A1D3E4F5A6B7C8D9", some 1⟩ "c8").2 sampleUser
        ⟨some "64B7F0C2A1D3E4F5A6B7C8D9", some 3⟩ "c9").1.status = 201 ∧
    (cartOf (postCart hexCast (postCart hexCast hexDb sampleUser
        ⟨some "64B7F0C2A1D3E4F5A6B7C8D9", some 1⟩ "c8").2 sampleUser
        ⟨some "64B7F0C2A1D3E4F5A6B7C8D9", some 3⟩ "c9").2 "u1").map (fun c => c.items)
      = some [⟨"64b7f0c2a1d3e4f5a6b7c8d9", 1⟩, ⟨"64b7f0c2a1d3e4f5a6b7c8d9", 3⟩] := by
  decide

/-- On a cart with at most one line per product, the lines of the product
after an add either are the new line with the requested quantity, or carry
the `jsAdd` of a former quantity of the product and the requested quantity. -/
theorem addToItems_line (items : List CartItem) (p : String) (q : Int)
    (hnd : (items.map (fun it => it.productId)).Nodup) :
    ∀ line ∈ addToItems items p p q, line.productId = p →
      line.quantity = q ∨
      ∃ it ∈ items, it.productId = p ∧ line.quantity = jsAdd it.quantity q := by
  intro line hline hp
  by_cases hmem : p ∈ items.map (fun it => it.productId)
  · rw [addToItems_of_mem items p p q hmem, bumpFirst_eq_map p q items hnd] at hline
    obtain ⟨it, hit, hf⟩ := List.mem_map.mp hline
    by_cases hitp : it.productId = p
    · right
      refine ⟨it, hit, hitp, ?_⟩
      rw [if_pos hitp] at hf
      rw [← hf]
    · rw [if_neg hitp] at hf
      rw [← hf] at hp
      exact absurd hp hitp
  · have hf : items.find? (fun it => decide (it.productId = p)) = none := by
      apply List.find?_eq_none.mpr
      intro x hx hxp
      apply hmem
      have hxp2 : x.productId = p := by simpa using hxp
      rw [← hxp2]
      exact List.mem_map_of_mem (fun it => it.productId) hx
    simp only [addToItems, hf] at hline
    rcases List.mem_append.mp hline with h | h
    · exfalso
      apply hmem
      rw [← hp]
      exact List.mem_map_of_mem (fun it => it.productId) h
    · left
      rw [List.mem_singleton] at h
      rw [h]

/-- Inside the model, for a product id sent in the form in which it is
stored: two successive adds answer 201, and the cart after the second is the
cart after the first with the quantity of the line of the product replaced by
its `jsAdd` with `q2`. -/
theorem postCart_twice_accumulated (castId : String → Option ObjectId) (db : Db)
    (user : Identity) (p : ObjectId) (q1 q2 : Int) (id1 id2 : ObjectId) (hp : p ≠ "")
    (hcast : castId p = some p)
    (hprod : (db.products.find? (fun x => x._id = p)).isSome = true)
    (hq1 : q1 ≠ 0) (hq2 : q2 ≠ 0)
    (hinit : ∀ c, cartOf db user.userId = some c → (c.items.map (fun it => it.productId)).Nodup) :
    (postCart castId db user ⟨some p, some q1⟩ id1).1.status = 201 ∧
    (postCart castId (postCart castId db user ⟨some p, some q1⟩ id1).2 user
      ⟨some p, some q2⟩ id2).1.status = 201 ∧
    ∃ c1 c2,
      cartOf (postCart castId db user ⟨some p, some q1⟩ id1).2 user.userId = some c1 ∧
      cartOf (postCart castId (postCart castId db user ⟨some p, some q1⟩ id1).2 user
        ⟨some p, some q2⟩ id2).2 user.userId = some c2 ∧
      c1.items.countP (fun it => decide (it.productId = p)) = 1 ∧
      c2.items.countP (fun it => decide (it.productId = p)) = 1 ∧
      c2.items = c1.items.map (fun it =>
        if it.productId = p then { it with quantity := jsAdd it.quantity q2 } else it) ∧
      c2._id = c1._id ∧ c2.userId = c1.userId ∧
      (∀ line ∈ c1.items, line.productId = p →
        line.quantity = q1 ∨
        ∃ c, cartOf db user.userId = some c ∧
          ∃ it ∈ c.items, it.productId = p ∧ line.quantity = jsAdd it.quantity q1) := by
  obtain ⟨hs1, hprods, c1, hc1, hnd1, hmem1, hform1, hnone1⟩ :=
    postCart_step castId db user p q1 id1 hp hq1 hcast hprod hinit
  have hprod1 : ((postCart castId db user ⟨some p, some q1⟩ id1).2.products.find?
      (fun x => x._id = p)).isSome = true := by
    rw [hprods]; exact hprod
  have hinit1 : ∀ c,
      cartOf (postCart castId db user ⟨some p, some q1⟩ id1).2 user.userId = some c →
      (c.items.map (fun it => it.productId)).Nodup := by
    intro c hc
    rw [hc1] at hc
    cases hc
    exact hnd1
  obtain ⟨hs2, _, c2, hc2, hnd2, hmem2, hform, _⟩ :=
    postCart_step castId (postCart castId db user ⟨some p, some q1⟩ id1).2 user p q2 id2 hp
      hq2 hcast hprod1 hinit1
  have hc2eq := hform c1 hc1
  have hitems : c2.items = c1.items.map (fun it =>
      if it.productId = p then { it with quantity := jsAdd it.quantity q2 } else it) := by
    rw [hc2eq]
    show addToItems c1.items p p q2 = _
    rw [addToItems_of_mem c1.items p p q2 hmem1, bumpFirst_eq_map p q2 c1.items hnd1]
  refine ⟨hs1, hs2, c1, c2, hc1, hc2, countP_line_eq_one p c1.items hnd1 hmem1,
    countP_line_eq_one p c2.items hnd2 hmem2, hitems, ?_, ?_, ?_⟩
  · rw [hc2eq]
  · rw [hc2eq]
  · intro line hline hlp
    cases hc : cartOf db user.userId with
    | none =>
      left
      have := hnone1 hc
      rw [this, List.mem_singleton] at hline
      rw [hline]
    | some c =>
      have hc1eq := hform1 c hc
      rw [hc1eq] at hline
      rcases addToItems_line c.items p q1 (hinit c hc) line hline hlp with h | ⟨it, hit, hitp, hq⟩
      · left; exact h
      · right; exact ⟨c, rfl, it, hit, hitp, hq⟩

/-- C6, amended. For an existing product whose id is sent in the form in
which it is stored, a user with no cart or with a cart holding at most one
line per product, and positive quantities `q1` and `q2` such that the
quantities reached stay safe integers, two successive `POST /cart` requests
for the product both answer 201; the cart after the second request holds
exactly one line of the product, has as many lines as after the first, and is
the cart after the first request with the quantity of the line of the product
increased by `q2` and every other line unchanged, in the same order. -/
theorem postCart_twice (castId : String → Option ObjectId) (db : Db) (user : Identity)
    (p : ObjectId) (q1 q2 : Int) (id1 id2 : ObjectId) (hp : p ≠ "")
    (hcast : castId p = some p)
    (hprod : (db.products.find? (fun x => x._id = p)).isSome = true)
    (hq1 : 0 < q1) (hq2 : 0 < q2)
    (hinit : ∀ c, cartOf db user.userId = some c → (c.items.map (fun it => it.productId)).Nodup)
    (hsafe : (q1 + q2).natAbs < 2 ^ 53)
    (hsafe0 : ∀ c, cartOf db user.userId = some c → ∀ it ∈ c.items, it.productId = p →
      (it.quantity + q1).natAbs < 2 ^ 53 ∧ (it.quantity + q1 + q2).natAbs < 2 ^ 53) :
    (postCart castId db user ⟨some p, some q1⟩ id1).1.status = 201 ∧
    (postCart castId (postCart castId db user ⟨some p, some q1⟩ id1).2 user
      ⟨some p, some q2⟩ id2).1.status = 201 ∧
    ∃ c1 c2,
      cartOf (postCart castId db user ⟨some p, some q1⟩ id1).2 user.userId = some c1 ∧
      cartOf (postCart castId (postCart castId db user ⟨some p, some q1⟩ id1).2 user
        ⟨some p, some q2⟩ id2).2 user.userId = some c2 ∧
      c1.items.countP (fun it => decide (it.productId = p)) = 1 ∧
      c2.items.countP (fun it => decide (it.productId = p)) = 1 ∧
      c2.items.length = c1.items.length ∧
      c2.items = c1.items.map (fun it =>
        if it.productId = p then { it with quantity := it.quantity + q2 } else it) ∧
      c2._id = c1._id ∧ c2.userId = c1.userId := by
  obtain ⟨hs1, hs2, c1, c2, hc1, hc2, hn1, hn2, hitems, hid, hu, hlines⟩ :=
    postCart_twice_accumulated castId db user p q1 q2 id1 id2 hp hcast hprod
      (ne_of_gt hq1) (ne_of_gt hq2) hinit
  have hexact : ∀ line ∈ c1.items, line.productId = p →
      jsAdd line.quantity q2 = line.quantity + q2 := by
    intro line hline hlp
    apply roundDouble_safe
    rcases hlines line hline hlp with h | ⟨c, hc, it, hit, hitp, hq⟩
    · rw [h]; exact hsafe
    · obtain ⟨ha, hb⟩ := hsafe0 c hc it hit hitp
      have hq' : line.quantity = it.quantity + q1 := by
        rw [hq]; exact roundDouble_safe _ ha
      rw [hq']; exact hb
  have hitems2 : c2.items = c1.items.map (fun it =>
      if it.productId = p then { it with quantity := it.quantity + q2 } else it) := by
    rw [hitems]
    apply List.map_congr_left
    intro line hline
    by_cases hlp : line.productId = p
    · simp only [if_pos hlp, hexact line hline hlp]
    · simp only [if_neg hlp]
  refine ⟨hs1, hs2, c1, c2, hc1, hc2, hn1, hn2, ?_, hitems2, hid, hu⟩
  rw [hitems2, List.length_map]

/-- C6, amended, on the sample cart (two units of the first product, one of
the second): adding one and then three units of the first product leaves one
line of it, with six units, and the line of the second product as it was. -/
theorem postCart_twice_witness :
    (∃ c1 c2,
      cartOf (postCart hexCast hexCartDb sampleUser
        ⟨some "64b7f0c2a1d3e4f5a6b7c8d9", some 1⟩ "c8").2 sampleUser.userId = some c1 ∧
      cartOf (postCart hexCast (postCart hexCast hexCartDb sampleUser
        ⟨some "64b7f0c2a1d3e4f5a6b7c8d9", some 1⟩ "c8").2 sampleUser
        ⟨some "64b7f0c2a1d3e4f5a6b7c8d9", some 3⟩ "c9").2 sampleUser.userId = some c2 ∧
      c1.items.countP (fun it => decide (it.productId = "64b7f0c2a1d3e4f5a6b7c8d9")) = 1 ∧
      c2.items.countP (fun it => decide (it.productId = "64b7f0c2a1d3e4f5a6b7c8d9")) = 1 ∧
      c2.items.length = c1.items.length ∧
      c2.items = c1.items.map (fun it =>
        if it.productId = "64b7f0c2a1d3e4f5a6b7c8d9" then
          { it with quantity := it.quantity + 3 } else it) ∧
      c2._id = c1._id ∧ c2.userId = c1.userId) ∧
    (cartOf (postCart hexCast (postCart hexCast hexCartDb sampleUser
        ⟨some "64b7f0c2a1d3e4f5a6b7c8d9", some 1⟩ "c8").2 sampleUser
        ⟨some "64b7f0c2a1d3e4f5a6b7c8d9", some 3⟩ "c9").2 "u1").map (fun c => c.items)
      = some [⟨"64b7f0c2a1d3e4f5a6b7c8d9", 6⟩, ⟨"64b7f0c2a1d3e4f5a6b7c8da", 1⟩] :=
  ⟨(postCart_twice hexCast hexCartDb sampleUser "64b7f0c2a1d3e4f5a6b7c8d9" 1 3 "c8" "c9"
      (by decide) (by decide) (by decide) (by decide) (by decide)
      (fun c hc => by
        have hs : cartOf hexCartDb sampleUser.userId = some hexCart := by decide
        rw [hs] at hc
        cases hc
        decide)
      (by decide)
      (fun c hc => by
        have hs : cartOf hexCartDb sampleUser.userId = some hexCart := by decide
        rw [hs] at hc
        cases hc
        decide)).2.2,
    by decide⟩

/-! ## Wishlist: adding a product -/

/-- For a product id sent in the form in which it is stored and already held
by the wishlist of the requester, `POST /wishlist` answers 400 and leaves the
database unchanged. -/
theorem postWishlist_duplicate_canonical (castId : String → Option ObjectId) (db : Db)
    (user : Identity) (id : ObjectId) (newId : ObjectId) (w : Wishlist)
    (hcast : castId id = some id)
    (hprod : (db.products.find? (fun p => p._id = id)).isSome = true)
    (hw : wishlistOf db user.userId = some w) (hmem : id ∈ w.products) :
    postWishlist castId db user (some id) newId
      = (⟨400, "Product already in wishlist"⟩, db) := by
  obtain ⟨prod, hp⟩ := Option.isSome_iff_exists.mp hprod
  have hf : db.wishlists.find? (fun x => decide (x.userId = user.userId)) = some w := hw
  simp [postWishlist, hcast, hp, hf, hmem]

/-- C7, the failing request. The wishlist of `u1` holds the sample product.
Sent with the hexadecimal letters of the id in upper case, the product is
found through the cast, `includes` compares the stored id with the request
string and finds nothing, and `push` stores the id again: the handler answers
200 and the wishlist lists the product twice.  Sent as stored, the same id is
refused with 400. -/
theorem postWishlist_upper_case :
    hexCast "64B7F0C2A1D3E4F5A6B7C8D9" = some "64b7f0c2a1d3e4f5a6b7c8d9" ∧
    (wishlistOf hexDb "u1").map (fun w => w.products) = some ["64b7f0c2a1d3e4f5a6b7c8d9"] ∧
    (postWishlist hexCast hexDb sampleUser (some "64B7F0C2A1D3E4F5A6B7C8D9") "w9").1
      = ⟨200, "Product added to wishlist"⟩ ∧
    (wishlistOf (postWishlist hexCast hexDb sampleUser
        (some "64B7F0C2A1D3E4F5A6B7C8D9") "w9").2 "u1").map (fun w => w.products)
      = some ["64b7f0c2a1d3e4f5a6b7c8d9", "64b7f0c2a1d3e4f5a6b7c8d9"] ∧
    postWishlist hexCast hexDb sampleUser (some "64b7f0c2a1d3e4f5a6b7c8d9") "w9"
      = (⟨400, "Product already in wishlist"⟩, hexDb) := by
  decide

end Scentara
